import Mathlib

/-!
# Galaxy-Device-Info: `tools/receive_data.c`

A shallow embedding of the two routines of `receive_data.c`:

* `find_device_and_endpoints`, the scan of the USB device list for the first
  Samsung device (vendor id `0x04e8`) with an interface carrying a bulk-IN and
  a bulk-OUT endpoint;
* `main`, which claims the interface, sends the command `DVIF` and runs the
  receive loop that accumulates chunks until an end marker is seen, the buffer
  is full or a read fails.

The answers of libusb (descriptors, return codes, the bytes of every read) are
inputs of the model.  Bytes, ids and addresses are natural numbers; the return
codes are integers.  The variable `transferred` and the buffer `chunk_buf` of
`main` are carried from the command write through all reads (`bulk_read`,
`Env.reads`): the loop body works on `chunk_buf[0 .. transferred)` as it finds
them after each call.
-/

namespace ReceiveData

/-! ## Constants -/

/-- The constant `TARGET_VID`. -/
def TARGET_VID : Nat := 0x04e8

/-- The constant `CMD_DATA`, the bytes of `"DVIF"`. -/
def CMD_DATA : List Nat := [68, 86, 73, 70]

/-- The constant `CMD_LEN`. -/
def CMD_LEN : Nat := 4

/-- The constant `CHUNK_SIZE`. -/
def CHUNK_SIZE : Nat := 16384

/-- The constant `MAX_DATA_SIZE`. -/
def MAX_DATA_SIZE : Nat := 65536

/-- Modelled from the spec: the constant `LIBUSB_TRANSFER_TYPE_MASK` of `libusb.h`,
which is not part of the sources; the low two bits of `bmAttributes`. -/
def LIBUSB_TRANSFER_TYPE_MASK : Nat := 0x03

/-- Modelled from the spec: the constant `LIBUSB_TRANSFER_TYPE_BULK` of `libusb.h`,
which is not part of the sources; transfer type "bulk". -/
def LIBUSB_TRANSFER_TYPE_BULK : Nat := 2

/-- Modelled from the spec: the constant `LIBUSB_ENDPOINT_DIR_MASK` of `libusb.h`,
which is not part of the sources; the direction bit of an endpoint address. -/
def LIBUSB_ENDPOINT_DIR_MASK : Nat := 0x80

/-- Modelled from the spec: the constant `LIBUSB_ENDPOINT_IN` of `libusb.h`,
which is not part of the sources; direction bit set means device-to-host. -/
def LIBUSB_ENDPOINT_IN : Nat := 0x80

/-! ## Data model of the resolver -/

/-- The record `struct DeviceConfig`. -/
structure DeviceConfig where
  pid : Nat
  interface_num : Nat
  ep_in : Nat
  ep_out : Nat
  deriving DecidableEq, Repr

/-- The fields of `struct libusb_endpoint_descriptor` that the scan reads. -/
structure EndpointDescriptor where
  bEndpointAddress : Nat
  bmAttributes : Nat
  deriving DecidableEq, Repr

/-- The first alternate setting (`altsetting[0]`) of one interface of the
configuration: its number and its `bNumEndpoints` endpoints in descriptor order. -/
structure InterfaceDescriptor where
  bInterfaceNumber : Nat
  endpoint : List EndpointDescriptor
  deriving DecidableEq, Repr

/-- One entry of the device list together with what libusb answers about it:
`descRet` is the result of `libusb_get_device_descriptor`, `idVendor` and
`idProduct` the descriptor fields, `interface` the `bNumInterfaces` interfaces of
configuration 0 (the source does not check `libusb_get_config_descriptor`, so
the descriptor is taken as delivered), `openRet` the result of `libusb_open`. -/
structure Device where
  descRet : Int
  idVendor : Nat
  idProduct : Nat
  interface : List InterfaceDescriptor
  openRet : Int
  deriving DecidableEq, Repr

/-- The locals `found_in`, `found_out`, `temp_ep_in`, `temp_ep_out` of the
interface loop. -/
structure EpScan where
  found_in : Bool
  found_out : Bool
  temp_ep_in : Nat
  temp_ep_out : Nat
  deriving DecidableEq, Repr

/-- The test `(bmAttributes & LIBUSB_TRANSFER_TYPE_MASK) == LIBUSB_TRANSFER_TYPE_BULK`. -/
def isBulk (ep : EndpointDescriptor) : Bool :=
  ep.bmAttributes &&& LIBUSB_TRANSFER_TYPE_MASK == LIBUSB_TRANSFER_TYPE_BULK

/-- The test `(bEndpointAddress & LIBUSB_ENDPOINT_DIR_MASK) == LIBUSB_ENDPOINT_IN`. -/
def isIn (ep : EndpointDescriptor) : Bool :=
  ep.bEndpointAddress &&& LIBUSB_ENDPOINT_DIR_MASK == LIBUSB_ENDPOINT_IN

/-- The body of the endpoint loop `for (k ...)` for one endpoint. -/
def scanEndpoint (st : EpScan) (ep : EndpointDescriptor) : EpScan :=
  if isBulk ep then
    if isIn ep then
      if !st.found_in then { st with temp_ep_in := ep.bEndpointAddress, found_in := true }
      else st
    else
      if !st.found_out then { st with temp_ep_out := ep.bEndpointAddress, found_out := true }
      else st
  else st

/-- The endpoint loop over `inter_desc->endpoint[0 .. bNumEndpoints)`, started
from `found_in = found_out = 0`, `temp_ep_in = temp_ep_out = 0`. -/
def scanEndpoints (eps : List EndpointDescriptor) : EpScan :=
  eps.foldl scanEndpoint ⟨false, false, 0, 0⟩

/-- The interface loop `for (j ...)`: the first interface whose endpoint scan
ends with `found_in && found_out`, with the scan's locals; `none` when the loop
runs to its end. -/
def scanInterfaces : List InterfaceDescriptor → Option (InterfaceDescriptor × EpScan)
  | [] => none
  | inter :: rest =>
    let st := scanEndpoints inter.endpoint
    if st.found_in && st.found_out then some (inter, st) else scanInterfaces rest

/-- What `find_device_and_endpoints` leaves behind: its return value, the
contents of `*config`, the handle stored in `*h` (the index of the opened
device in the list, `none` for an untouched `NULL`), and the indices of the
devices on which `libusb_open` was called. -/
structure FindResult where
  ret : Int
  config : DeviceConfig
  h : Option Nat
  opens : List Nat
  deriving DecidableEq, Repr

/-- The device loop `while ((dev = devs[i++]) != NULL)` from index `i` on, with
the `goto cleanup` and the final `return found ? 0 : -1`. -/
def scanDevices (h : Option Nat) (config : DeviceConfig) : Nat → List Device → FindResult
  | _, [] => ⟨-1, config, h, []⟩
  | i, dev :: rest =>
    if dev.descRet < 0 then scanDevices h config (i + 1) rest
    else if dev.idVendor = TARGET_VID then
      match scanInterfaces dev.interface with
      | some (inter, st) =>
        if dev.openRet = 0 then
          ⟨0, ⟨dev.idProduct, inter.bInterfaceNumber, st.temp_ep_in, st.temp_ep_out⟩, some i, [i]⟩
        else ⟨-1, config, h, [i]⟩
      | none => scanDevices h config (i + 1) rest
    else scanDevices h config (i + 1) rest

/-- The function `find_device_and_endpoints`: `cnt` is the result of
`libusb_get_device_list`, `devs` the list it delivered, `h` and `config` the
contents of the two out-parameters on entry. -/
def find_device_and_endpoints (cnt : Int) (devs : List Device) (h : Option Nat)
    (config : DeviceConfig) : FindResult :=
  if cnt < 0 then ⟨-1, config, h, []⟩ else scanDevices h config 0 devs

/-! ## The receive loop of `main` -/

/-- The bytes of the C string that starts at a pointer: `mem` is the memory from
the pointer to the end of the written part of the buffer, the string ends
before the first NUL byte (the buffer is zeroed by `memset` and
`total_data[total_len]` is set to NUL after every append, so a NUL always
follows the written part). -/
def cstring (mem : List Nat) : List Nat :=
  mem.takeWhile (fun b => b != 0)

/-- The offset of the first occurrence of `needle` in `hay`, if any. -/
def findSub (needle : List Nat) : List Nat → Option Nat
  | [] => if needle.isEmpty then some 0 else none
  | b :: rest =>
    if needle.isPrefixOf (b :: rest) then some 0
    else (findSub needle rest).map (fun i => i + 1)

/-- The libc function `strstr` on the C string at the start of `mem`: the offset
of the first occurrence of `needle`, `none` for a `NULL` result. -/
def strstr (mem needle : List Nat) : Option Nat :=
  findSub needle (cstring mem)

/-- The string literal `"@#"`. -/
def startMarker : List Nat := [64, 35]

/-- The string literal `"#@"`. -/
def altEndMarker : List Nat := [35, 64]

/-- One call of `libusb_bulk_transfer` on the IN endpoint as the loop body sees
it: the return value `ret` and the bytes `chunk_buf[0 .. transferred)` found
after the call. The variable `transferred` and the buffer `chunk_buf` live
across the calls: after a call that returned before writing the count, `data`
holds the bytes of the count left by the call before it (see `bulk_read`). -/
structure Read where
  ret : Int
  data : List Nat
  deriving DecidableEq, Repr

/-- What one call of `libusb_bulk_transfer` on the IN endpoint does: it returns
`ret`, and either it writes the received bytes to the front of `chunk_buf` and
their number to `transferred` (`written = some bytes`), or it returns before
the transfer was submitted and writes neither (`written = none`). -/
structure Transfer where
  ret : Int
  written : Option (List Nat)
  deriving DecidableEq, Repr

/-- The variable `transferred` of `main` and the contents of `chunk_buf`. -/
structure ChunkState where
  transferred : Nat
  chunk_buf : List Nat
  deriving DecidableEq, Repr

/-- The effect of the call `libusb_bulk_transfer(h, ep_in, chunk_buf, CHUNK_SIZE,
&transferred, TIMEOUT_MS)` on `transferred` and `chunk_buf`: nothing is reset
before the call, so a call that writes nothing leaves the old count and the old
bytes in place. -/
def bulk_read (st : ChunkState) (t : Transfer) : ChunkState :=
  match t.written with
  | none => st
  | some bytes => ⟨bytes.length, bytes ++ st.chunk_buf.drop bytes.length⟩

/-- The successive reads as the loop body sees them, from the values of
`transferred` and `chunk_buf` before the first read. -/
def seenReads : ChunkState → List Transfer → List Read
  | _, [] => []
  | st, t :: rest =>
    ⟨t.ret, (bulk_read st t).chunk_buf.take (bulk_read st t).transferred⟩ ::
      seenReads (bulk_read st t) rest

/-- The variables of the receive loop: the written part
`total_data[0 .. total_len)` of the buffer, the flag `start_found`, and the
bytes written to standard output so far. -/
structure RxState where
  total_data : List Nat
  start_found : Bool
  stdout : List Nat
  deriving DecidableEq, Repr

/-- The variable `total_len`. -/
def RxState.total_len (s : RxState) : Nat := s.total_data.length

/-- The three `break` statements of the loop. -/
inductive Stop
  | capacity
  | endMarker
  | readStatus
  deriving DecidableEq, Repr

/-- The effect of one loop iteration: the loop goes on, leaves by a `break`, or
adds 2 to a `NULL` `start_ptr` and searches from there. -/
inductive Iter
  | next (s : RxState)
  | stop (s : RxState) (why : Stop)
  | fault
  deriving DecidableEq, Repr

/-- The final `if (ret != 0)` of the loop body. -/
def checkRet (r : Read) (s : RxState) : Iter :=
  if r.ret ≠ 0 then
    Iter.stop (if s.total_len > 0 then { s with stdout := s.stdout ++ s.total_data } else s)
      Stop.readStatus
  else Iter.next s

/-- The body of `while (1)` after the call of `libusb_bulk_transfer`, for one
read as the body sees it: `r.ret` is `ret` and `r.data` is
`chunk_buf[0 .. transferred)`, so that `transferred` is the length of `r.data`.
The message on standard error is not modelled. -/
def iteration (s : RxState) (r : Read) : Iter :=
  let transferred := r.data.length
  if transferred > 0 then
    if s.total_len + transferred ≥ MAX_DATA_SIZE then Iter.stop s Stop.capacity
    else
      let total_data := s.total_data ++ r.data
      let start_ptr := strstr total_data startMarker
      let start_found := if !s.start_found && start_ptr.isSome then true else s.start_found
      let s1 : RxState := { s with total_data := total_data, start_found := start_found }
      if start_found then
        match start_ptr with
        | none => Iter.fault
        | some p =>
          let search_start := total_data.drop (p + 2)
          let end_ptr_1 := strstr search_start startMarker
          let end_ptr_2 := strstr search_start altEndMarker
          if end_ptr_1.isSome || end_ptr_2.isSome then
            Iter.stop { s1 with stdout := s1.stdout ++ total_data } Stop.endMarker
          else checkRet r s1
      else checkRet r s1
  else checkRet r s

/-- The state of the receive loop after the supplied reads: still inside the
loop, left by a `break` after `reads` calls of `libusb_bulk_transfer`, or
faulted. -/
inductive RxOutcome
  | running (s : RxState)
  | done (s : RxState) (why : Stop) (reads : Nat)
  | fault
  deriving DecidableEq, Repr

/-- The loop `while (1)` fed with the results of its successive reads; `n`
counts the reads already made. -/
def rxLoop : List Read → RxState → Nat → RxOutcome
  | [], s, _ => RxOutcome.running s
  | r :: rest, s, n =>
    match iteration s r with
    | Iter.next s1 => rxLoop rest s1 (n + 1)
    | Iter.stop s1 why => RxOutcome.done s1 why (n + 1)
    | Iter.fault => RxOutcome.fault

/-- The loop variables on entry: `total_len = 0`, `start_found = 0`, nothing
written. -/
def rxInit : RxState := ⟨[], false, []⟩

/-- The bytes of the chunks of a sequence of reads, in order. -/
def received (reads : List Read) : List Nat :=
  (reads.map (fun r => r.data)).flatten

/-! ## The function `main` -/

/-- The libusb calls of a run on the context and on the device handle, in
program order. Of the calls inside `find_device_and_endpoints` only
`libusb_open` is listed. -/
inductive Call
  | init
  | open (dev : Nat)
  | kernel_driver_active (iface : Nat)
  | detach_kernel_driver (iface : Nat)
  | claim_interface (iface : Nat)
  | bulk_transfer (endpoint : Nat) (length : Nat)
  | release_interface (iface : Nat)
  | close
  | exit
  deriving DecidableEq, Repr

/-- Everything the environment answers in one run: the results of
`libusb_init`, `libusb_get_device_list` (with the list),
`libusb_kernel_driver_active`, `libusb_claim_interface`, the bulk write of the
command and the count it leaves in `transferred` (4 when the command was
sent), whether the two `malloc` calls returned a buffer, the `CHUNK_SIZE`
bytes found in the fresh `chunk_buf`, and what the successive bulk reads do. -/
structure Env where
  initRet : Int
  cnt : Int
  devs : List Device
  kernelDriverActive : Int
  claimRet : Int
  sendRet : Int
  sendTransferred : Nat
  chunk_buf : Bool
  total_data : Bool
  chunkMem : List Nat
  transfers : List Transfer
  deriving Repr

/-- The reads of a run as the loop body sees them: `transferred` starts with
the count left by the command write (line 107) and `chunk_buf` with the bytes
of the fresh buffer; neither is reset before a read. -/
def Env.reads (env : Env) : List Read :=
  seenReads ⟨env.sendTransferred, env.chunkMem⟩ env.transfers

/-- The end of a run: the process has returned `status` with `stdout` written,
or it still waits in the receive loop after the supplied reads, or the loop
faulted. -/
inductive Run
  | exited (status : Int) (stdout : List Nat) (calls : List Call)
  | reading
  | crashed
  deriving DecidableEq, Repr

/-- The function `main`. -/
def main (env : Env) : Run :=
  if env.initRet ≠ 0 then Run.exited 1 [] [Call.init]
  else
    let f := find_device_and_endpoints env.cnt env.devs none ⟨0, 0, 0, 0⟩
    let c0 := Call.init :: f.opens.map Call.open
    if f.ret ≠ 0 then Run.exited 1 [] (c0 ++ [Call.exit])
    else
      let iface := f.config.interface_num
      let c1 := c0 ++ Call.kernel_driver_active iface ::
        (if env.kernelDriverActive = 1 then [Call.detach_kernel_driver iface] else [])
      let c2 := c1 ++ [Call.claim_interface iface]
      if env.claimRet ≠ 0 then Run.exited 1 [] (c2 ++ [Call.close, Call.exit])
      else
        let c3 := c2 ++ [Call.bulk_transfer (f.config.ep_out % 256) CMD_LEN]
        let cleanup := [Call.release_interface iface, Call.close, Call.exit]
        if env.sendRet ≠ 0 then Run.exited 0 [] (c3 ++ cleanup)
        else if !env.chunk_buf || !env.total_data then Run.exited 0 [] (c3 ++ cleanup)
        else
          match rxLoop env.reads rxInit 0 with
          | RxOutcome.running _ => Run.reading
          | RxOutcome.fault => Run.crashed
          | RxOutcome.done s _ n =>
            Run.exited 0 s.stdout
              (c3 ++ List.replicate n (Call.bulk_transfer (f.config.ep_in % 256) CHUNK_SIZE)
                ++ cleanup)

/-- The process exit status of a run, once it has ended. -/
def Run.status : Run → Option Int
  | Run.exited st _ _ => some st
  | _ => none

/-- The bytes on standard output of a run, once it has ended. -/
def Run.output : Run → Option (List Nat)
  | Run.exited _ out _ => some out
  | _ => none

/-- The setup of a run succeeds: libusb initialises, the resolver returns 0, the
interface is claimed, the command is sent and both buffers are allocated, so
that `main` enters the receive loop. -/
def setupOk (env : Env) : Prop :=
  env.initRet = 0 ∧
    (find_device_and_endpoints env.cnt env.devs none ⟨0, 0, 0, 0⟩).ret = 0 ∧
    env.claimRet = 0 ∧ env.sendRet = 0 ∧ env.chunk_buf = true ∧ env.total_data = true

/-! ## The resolver in the words of the specification -/

/-- An endpoint of transfer type bulk with the direction bit set. -/
def bulkIn (ep : EndpointDescriptor) : Bool := isBulk ep && isIn ep

/-- An endpoint of transfer type bulk with the direction bit clear. -/
def bulkOut (ep : EndpointDescriptor) : Bool := isBulk ep && !isIn ep

/-- The interface has both a bulk-IN and a bulk-OUT endpoint in its first
alternate setting. -/
def hasBulkPair (inter : InterfaceDescriptor) : Bool :=
  inter.endpoint.any bulkIn && inter.endpoint.any bulkOut

/-- The address of the first bulk-IN endpoint in descriptor order. -/
def firstBulkIn (inter : InterfaceDescriptor) : Option Nat :=
  (inter.endpoint.find? bulkIn).map (fun ep => ep.bEndpointAddress)

/-- The address of the first bulk-OUT endpoint in descriptor order. -/
def firstBulkOut (inter : InterfaceDescriptor) : Option Nat :=
  (inter.endpoint.find? bulkOut).map (fun ep => ep.bEndpointAddress)

/-- The device has a readable descriptor, the target vendor id and an interface
with a bulk pair. -/
def qualifies (dev : Device) : Bool :=
  decide (0 ≤ dev.descRet) && decide (dev.idVendor = 0x04e8) && dev.interface.any hasBulkPair

/-- The first qualifying device in list order with its first interface, in
descriptor order, that has a bulk pair. -/
def selected (devs : List Device) : Option (Device × InterfaceDescriptor) :=
  match devs.find? qualifies with
  | none => none
  | some dev => (dev.interface.find? hasBulkPair).map (fun inter => (dev, inter))

/-! ## Example inputs -/

/-- A device of another vendor that has a bulk pair. -/
def exOther : Device :=
  ⟨0, 0x1234, 0x0001, [⟨0, [⟨0x81, 2⟩, ⟨0x01, 2⟩]⟩], 0⟩

/-- A Samsung device with two interfaces: the first has a bulk-IN and an
interrupt endpoint, the second an interrupt endpoint followed by two bulk
endpoints of each direction. -/
def exSamsung : Device :=
  ⟨0, 0x04e8, 0x6860,
    [⟨0, [⟨0x81, 2⟩, ⟨0x82, 3⟩]⟩,
     ⟨1, [⟨0x82, 3⟩, ⟨0x02, 2⟩, ⟨0x83, 2⟩, ⟨0x84, 2⟩, ⟨0x05, 2⟩]⟩], 0⟩

/-- A Samsung device whose descriptor cannot be read. -/
def exUnreadable : Device :=
  ⟨-1, 0x04e8, 0x6860, [⟨0, [⟨0x81, 2⟩, ⟨0x01, 2⟩]⟩], 0⟩

/-- A device list with the three devices above. -/
def exDevs : List Device := [exOther, exUnreadable, exSamsung]

/-- A Samsung device with a bulk pair on which `libusb_open` returns `code`. -/
def exOpenFail (code : Int) : Device :=
  ⟨0, 0x04e8, 0x6860, [⟨0, [⟨0x81, 2⟩, ⟨0x01, 2⟩]⟩], code⟩

/-- A run on the example device list whose setup succeeds and in which every
read writes its count and its bytes, with the given reads; the fresh
`chunk_buf` holds zero bytes. -/
def exEnv (reads : List Read) : Env :=
  ⟨0, 3, exDevs, 0, 0, 0, 4, true, true, List.replicate CHUNK_SIZE 0,
    reads.map (fun r => ⟨r.ret, some r.data⟩)⟩

/-- The chunks `"XX"`, `"@#ABCD"`, `"EF#@"`, each read successfully. -/
def exChunks : List Read :=
  [⟨0, [88, 88]⟩, ⟨0, [64, 35, 65, 66, 67, 68]⟩, ⟨0, [69, 70, 35, 64]⟩]

/-- The chunks `"@#"` and `"q"`, the second delivered by a read that times out
(`LIBUSB_ERROR_TIMEOUT`), followed by a read that is never made. -/
def exTimeout : List Read :=
  [⟨0, [64, 35]⟩, ⟨-7, [113]⟩, ⟨0, [122, 122]⟩]

/-- A run on the example device list in which the bulk write of the command
times out. -/
def exSendFail : Env :=
  ⟨0, 3, exDevs, 0, 0, -7, 0, true, true, List.replicate CHUNK_SIZE 0, []⟩

/-- A successful read of a full chunk of 16384 bytes `'A'`. -/
def exChunk : Read := ⟨0, List.replicate 16384 65⟩

/-- Four full chunks, each read successfully. -/
def exFull : List Read := [exChunk, exChunk, exChunk, exChunk]

/-- The chunk `"@#AB#@ZZ"`, read successfully: bytes follow the end marker. -/
def exTrailing : List Read :=
  [⟨0, [64, 35, 65, 66, 35, 64, 90, 90]⟩]

/-- The chunk `"\0@#AB#@"`, read successfully: a NUL byte precedes the frame. -/
def exNul : List Read :=
  [⟨0, [0, 64, 35, 65, 66, 35, 64]⟩]

/-! ## The frame in the words of the specification -/

/-- The offset of the first end marker, `"@#"` or `"#@"`, in `l`. -/
def firstEnd (l : List Nat) : Option Nat :=
  match findSub startMarker l, findSub altEndMarker l with
  | some a, some b => some (min a b)
  | some a, none => some a
  | none, some b => some b
  | none, none => none

/-- The frame of a byte sequence: when it contains a start marker `"@#"`, at
first offset `p`, and an end marker in the region from offset `p + 2` on, the
prefix of the sequence that ends at and includes the first such end marker. -/
def framePrefix (l : List Nat) : Option (List Nat) :=
  match findSub startMarker l with
  | none => none
  | some p =>
    match firstEnd (l.drop (p + 2)) with
    | none => none
    | some q => some (l.take (p + 2 + q + 2))

/-- The chunk `"@#@#"`, read successfully: an end marker begins exactly two
bytes past the start marker. -/
def exResume : List Read :=
  [⟨0, [64, 35, 64, 35]⟩]

/-- A run in which `libusb_init` fails. -/
def exInitFail : Env :=
  ⟨-99, 3, exDevs, 0, 0, 0, 4, true, true, List.replicate CHUNK_SIZE 0, []⟩

/-- A run in which the device list holds no Samsung device. -/
def exNoDevice : Env :=
  ⟨0, 1, [exOther], 0, 0, 0, 4, true, true, List.replicate CHUNK_SIZE 0, []⟩

/-- A run in which `libusb_claim_interface` fails (`LIBUSB_ERROR_BUSY`). -/
def exClaimFail : Env :=
  ⟨0, 3, exDevs, 0, -6, 0, 4, true, true, List.replicate CHUNK_SIZE 0, []⟩

/-- The results of the first `n` reads of an unending sequence of reads. -/
def firstReads (reads : Nat → Read) (n : Nat) : List Read :=
  (List.range n).map reads

/-- An unending sequence of reads that each time out with nothing transferred. -/
def exSilent : Nat → Read := fun _ => ⟨-7, []⟩

/-- The device list without the devices whose descriptor cannot be read. -/
def readable (devs : List Device) : List Device :=
  devs.filter (fun dev => decide (0 ≤ dev.descRet))

/-- A run on the example device list whose setup succeeds, the command write
leaving 4 in `transferred`, and whose first read returns
`LIBUSB_ERROR_NO_DEVICE` before the transfer is submitted, writing neither the
count nor any byte; the fresh `chunk_buf` holds zero bytes. -/
def exStale : Env :=
  ⟨0, 3, exDevs, 0, 0, 0, 4, true, true, List.replicate CHUNK_SIZE 0, [⟨-4, none⟩]⟩

/-- A run on the example device list whose setup succeeds, whose first read
delivers `"AB"` and whose second read returns `LIBUSB_ERROR_NO_DEVICE` before
the transfer is submitted. -/
def exStaleAfter : Env :=
  ⟨0, 3, exDevs, 0, 0, 0, 4, true, true, List.replicate CHUNK_SIZE 0,
    [⟨0, some [65, 66]⟩, ⟨-4, none⟩]⟩

/-! ## Lemmas on the resolver -/

theorem foldl_scanEndpoint (eps : List EndpointDescriptor) (st : EpScan) :
    eps.foldl scanEndpoint st =
      ⟨st.found_in || eps.any bulkIn, st.found_out || eps.any bulkOut,
        if st.found_in then st.temp_ep_in
        else ((eps.find? bulkIn).map (fun ep => ep.bEndpointAddress)).getD st.temp_ep_in,
        if st.found_out then st.temp_ep_out
        else ((eps.find? bulkOut).map (fun ep => ep.bEndpointAddress)).getD st.temp_ep_out⟩ := by
  induction eps generalizing st with
  | nil => cases st; simp
  | cons ep rest ih =>
    obtain ⟨fi, fo, ti, tu⟩ := st
    rw [List.foldl_cons, ih]
    cases hb : isBulk ep <;> cases hi : isIn ep <;> cases fi <;> cases fo <;>
      simp [scanEndpoint, bulkIn, bulkOut, hb, hi, List.find?_cons]

theorem scanEndpoints_eq (inter : InterfaceDescriptor) :
    scanEndpoints inter.endpoint =
      ⟨inter.endpoint.any bulkIn, inter.endpoint.any bulkOut,
        (firstBulkIn inter).getD 0, (firstBulkOut inter).getD 0⟩ := by
  simp [scanEndpoints, foldl_scanEndpoint, firstBulkIn, firstBulkOut]

theorem scanInterfaces_eq (l : List InterfaceDescriptor) :
    scanInterfaces l =
      (l.find? hasBulkPair).map (fun inter => (inter, scanEndpoints inter.endpoint)) := by
  induction l with
  | nil => rfl
  | cons inter rest ih =>
    simp only [scanInterfaces, List.find?_cons, ih]
    have h : ((scanEndpoints inter.endpoint).found_in && (scanEndpoints inter.endpoint).found_out)
        = hasBulkPair inter := by
      rw [scanEndpoints_eq]; rfl
    rw [h]
    cases hasBulkPair inter <;> simp

theorem selected_cons_of_qualifies (dev : Device) (rest : List Device)
    (hq : qualifies dev = true) :
    ∃ inter, dev.interface.find? hasBulkPair = some inter ∧
      selected (dev :: rest) = some (dev, inter) := by
  have hany : dev.interface.any hasBulkPair = true := by
    simp only [qualifies, Bool.and_eq_true] at hq
    exact hq.2
  cases hf : dev.interface.find? hasBulkPair with
  | none =>
    rw [List.find?_eq_none] at hf
    rw [List.any_eq_true] at hany
    obtain ⟨x, hx, hp⟩ := hany
    exact absurd hp (hf x hx)
  | some inter =>
    exact ⟨inter, rfl, by simp [selected, List.find?_cons, hq, hf]⟩

theorem selected_cons_of_not_qualifies (dev : Device) (rest : List Device)
    (hq : qualifies dev = false) : selected (dev :: rest) = selected rest := by
  simp [selected, List.find?_cons, hq]

theorem scanDevices_skip (h : Option Nat) (c : DeviceConfig) (dev : Device)
    (rest : List Device) (i : Nat) (hq : qualifies dev = false) :
    scanDevices h c i (dev :: rest) = scanDevices h c (i + 1) rest := by
  by_cases hd : dev.descRet < 0
  · simp [scanDevices, hd]
  · by_cases hv : dev.idVendor = TARGET_VID
    · have hnone : dev.interface.find? hasBulkPair = none := by
        have hd2 : 0 ≤ dev.descRet := by omega
        have hv2 : dev.idVendor = 0x04e8 := hv
        simp only [qualifies, hd2, hv2, decide_True, Bool.true_and] at hq
        rw [List.find?_eq_none]
        intro x hx hp
        have : dev.interface.any hasBulkPair = true := List.any_eq_true.mpr ⟨x, hx, hp⟩
        rw [hq] at this
        exact Bool.noConfusion this
      simp [scanDevices, hd, hv, scanInterfaces_eq, hnone]
    · simp [scanDevices, hd, hv]

theorem scanDevices_eq (h : Option Nat) (c : DeviceConfig) (devs : List Device) (i : Nat) :
    scanDevices h c i devs =
      match selected devs with
      | none => ⟨-1, c, h, []⟩
      | some (dev, inter) =>
        if dev.openRet = 0 then
          ⟨0, ⟨dev.idProduct, inter.bInterfaceNumber, (firstBulkIn inter).getD 0,
            (firstBulkOut inter).getD 0⟩, some (i + devs.findIdx qualifies),
            [i + devs.findIdx qualifies]⟩
        else ⟨-1, c, h, [i + devs.findIdx qualifies]⟩ := by
  induction devs generalizing i with
  | nil => rfl
  | cons dev rest ih =>
    cases hq : qualifies dev with
    | true =>
      obtain ⟨inter, hf, hsel⟩ := selected_cons_of_qualifies dev rest hq
      have hidx : List.findIdx qualifies (dev :: rest) = 0 := by
        simp [List.findIdx_cons, hq]
      simp only [qualifies, Bool.and_eq_true, decide_eq_true_eq] at hq
      obtain ⟨⟨hd, hv⟩, -⟩ := hq
      have hd2 : ¬ dev.descRet < 0 := by omega
      have hv2 : dev.idVendor = TARGET_VID := hv
      rw [hsel, hidx]
      simp only [scanDevices, hd2, hv2, if_true, if_false, scanInterfaces_eq, hf, Option.map_some',
        scanEndpoints_eq]
      rfl
    | false =>
      have hidx : List.findIdx qualifies (dev :: rest) = List.findIdx qualifies rest + 1 := by
        simp [List.findIdx_cons, hq]
      rw [selected_cons_of_not_qualifies dev rest hq, scanDevices_skip h c dev rest i hq, ih, hidx]
      have e : i + 1 + List.findIdx qualifies rest = i + (List.findIdx qualifies rest + 1) := by
        omega
      rw [e]

theorem find_device_and_endpoints_eq (cnt : Int) (devs : List Device) (h : Option Nat)
    (c : DeviceConfig) (hcnt : 0 ≤ cnt) :
    find_device_and_endpoints cnt devs h c =
      match selected devs with
      | none => ⟨-1, c, h, []⟩
      | some (dev, inter) =>
        if dev.openRet = 0 then
          ⟨0, ⟨dev.idProduct, inter.bInterfaceNumber, (firstBulkIn inter).getD 0,
            (firstBulkOut inter).getD 0⟩, some (devs.findIdx qualifies),
            [devs.findIdx qualifies]⟩
        else ⟨-1, c, h, [devs.findIdx qualifies]⟩ := by
  have hc : ¬ cnt < 0 := by omega
  simp only [find_device_and_endpoints, hc, if_false, scanDevices_eq, Nat.zero_add]


theorem qualifies_iff (dev : Device) :
    qualifies dev = true ↔
      0 ≤ dev.descRet ∧ dev.idVendor = 0x04e8 ∧
        ∃ inter ∈ dev.interface,
          (∃ ep ∈ inter.endpoint, isBulk ep = true ∧ isIn ep = true) ∧
          (∃ ep ∈ inter.endpoint, isBulk ep = true ∧ isIn ep = false) := by
  simp [qualifies, hasBulkPair, bulkIn, bulkOut, and_assoc]

theorem selected_eq_none_iff (devs : List Device) :
    selected devs = none ↔ ∀ dev ∈ devs, qualifies dev = false := by
  induction devs with
  | nil => simp [selected]
  | cons dev rest ih =>
    cases hq : qualifies dev with
    | true =>
      obtain ⟨inter, -, hsel⟩ := selected_cons_of_qualifies dev rest hq
      simp [hsel, hq]
    | false =>
      rw [selected_cons_of_not_qualifies dev rest hq, ih]
      simp [hq]

theorem selected_eq_some_iff (devs : List Device) (dev : Device) (inter : InterfaceDescriptor) :
    selected devs = some (dev, inter) ↔
      devs.find? qualifies = some dev ∧ dev.interface.find? hasBulkPair = some inter := by
  unfold selected
  cases hf : devs.find? qualifies with
  | none => simp
  | some d =>
    simp only [Option.map_eq_some', Prod.mk.injEq, Option.some.injEq]
    constructor
    · rintro ⟨a, ha, rfl, rfl⟩
      exact ⟨rfl, ha⟩
    · rintro ⟨rfl, ha⟩
      exact ⟨inter, ha, rfl, rfl⟩

theorem firstBulk_of_hasBulkPair (inter : InterfaceDescriptor) (hp : hasBulkPair inter = true) :
    (∃ ep, inter.endpoint.find? bulkIn = some ep) ∧
      (∃ ep, inter.endpoint.find? bulkOut = some ep) := by
  simp only [hasBulkPair, Bool.and_eq_true, List.any_eq_true] at hp
  obtain ⟨⟨a, ha, hpa⟩, ⟨b, hb, hpb⟩⟩ := hp
  constructor
  · cases hf : inter.endpoint.find? bulkIn with
    | none => rw [List.find?_eq_none] at hf; exact absurd hpa (hf a ha)
    | some ep => exact ⟨ep, rfl⟩
  · cases hf : inter.endpoint.find? bulkOut with
    | none => rw [List.find?_eq_none] at hf; exact absurd hpb (hf b hb)
    | some ep => exact ⟨ep, rfl⟩

theorem firstBulk_getD (inter : InterfaceDescriptor) (hp : hasBulkPair inter = true) :
    firstBulkIn inter = some ((firstBulkIn inter).getD 0) ∧
      firstBulkOut inter = some ((firstBulkOut inter).getD 0) := by
  obtain ⟨⟨a, ha⟩, ⟨b, hb⟩⟩ := firstBulk_of_hasBulkPair inter hp
  simp [firstBulkIn, firstBulkOut, ha, hb]

/-- C1: when the device list is delivered and every open succeeds, the resolver
returns 0 exactly when some device with a readable descriptor and vendor id
`0x04e8` has an interface with a bulk-IN and a bulk-OUT endpoint; it then
reports the product id of the first such device and the number of that device's
first such interface; and for a first matching device with two interfaces of
which the first has no bulk pair, the second interface's number and endpoint
addresses are returned. -/
theorem find_device_and_endpoints_first_match (cnt : Int) (devs : List Device)
    (h : Option Nat) (c : DeviceConfig) (hcnt : 0 ≤ cnt)
    (hopen : ∀ dev ∈ devs, dev.openRet = 0) :
    ((find_device_and_endpoints cnt devs h c).ret = 0 ↔
      ∃ dev ∈ devs, 0 ≤ dev.descRet ∧ dev.idVendor = 0x04e8 ∧
        ∃ inter ∈ dev.interface,
          (∃ ep ∈ inter.endpoint, isBulk ep = true ∧ isIn ep = true) ∧
          (∃ ep ∈ inter.endpoint, isBulk ep = true ∧ isIn ep = false)) ∧
    ((find_device_and_endpoints cnt devs h c).ret = 0 →
      ∃ dev inter, devs.find? qualifies = some dev ∧
        dev.interface.find? hasBulkPair = some inter ∧
        (find_device_and_endpoints cnt devs h c).config.pid = dev.idProduct ∧
        (find_device_and_endpoints cnt devs h c).config.interface_num
          = inter.bInterfaceNumber) ∧
    (∀ dev i1 i2, devs.find? qualifies = some dev → dev.interface = [i1, i2] →
      hasBulkPair i1 = false →
        (find_device_and_endpoints cnt devs h c).ret = 0 ∧
        (find_device_and_endpoints cnt devs h c).config.interface_num = i2.bInterfaceNumber ∧
        firstBulkIn i2 = some (find_device_and_endpoints cnt devs h c).config.ep_in ∧
        firstBulkOut i2 = some (find_device_and_endpoints cnt devs h c).config.ep_out) := by
  rw [find_device_and_endpoints_eq cnt devs h c hcnt]
  cases hsel : selected devs with
  | none =>
    have hnone := (selected_eq_none_iff devs).mp hsel
    refine ⟨?_, ?_, ?_⟩
    · constructor
      · intro h0; simp at h0
      · rintro ⟨dev, hmem, hrest⟩
        have hq := (qualifies_iff dev).mpr hrest
        rw [hnone dev hmem] at hq
        exact Bool.noConfusion hq
    · intro h0; simp at h0
    · intro dev i1 i2 hf _ _
      have hq := List.find?_some hf
      rw [hnone dev (List.mem_of_find?_eq_some hf)] at hq
      exact Bool.noConfusion hq
  | some p =>
    obtain ⟨dev, inter⟩ := p
    obtain ⟨hfd, hfi⟩ := (selected_eq_some_iff devs dev inter).mp hsel
    have hmem := List.mem_of_find?_eq_some hfd
    have hq : qualifies dev = true := List.find?_some hfd
    have hpair : hasBulkPair inter = true := List.find?_some hfi
    dsimp only
    rw [if_pos (hopen dev hmem)]
    refine ⟨?_, ?_, ?_⟩
    · constructor
      · intro _
        exact ⟨dev, hmem, (qualifies_iff dev).mp hq⟩
      · intro _; rfl
    · intro _
      exact ⟨dev, inter, hfd, hfi, rfl, rfl⟩
    · intro dev2 i1 i2 hf hint hp1
      rw [hfd] at hf
      cases hf
      rw [hint] at hfi
      simp only [List.find?_cons, hp1] at hfi
      cases hp2 : hasBulkPair i2 with
      | false => simp [hp2] at hfi
      | true =>
        simp only [hp2, Option.some.injEq] at hfi
        subst hfi
        exact ⟨rfl, rfl, (firstBulk_getD i2 hp2).1, (firstBulk_getD i2 hp2).2⟩

/-- Witness for C1: a list with a device of another vendor, an unreadable one
and a Samsung device whose second interface carries the bulk pair. -/
theorem find_device_and_endpoints_first_match_witness :
    (find_device_and_endpoints 3 exDevs none ⟨0, 0, 0, 0⟩).ret = 0 ∧
      (find_device_and_endpoints 3 exDevs none ⟨0, 0, 0, 0⟩).config.interface_num = 1 ∧
      firstBulkIn ⟨1, [⟨0x82, 3⟩, ⟨0x02, 2⟩, ⟨0x83, 2⟩, ⟨0x84, 2⟩, ⟨0x05, 2⟩]⟩ =
        some (find_device_and_endpoints 3 exDevs none ⟨0, 0, 0, 0⟩).config.ep_in ∧
      firstBulkOut ⟨1, [⟨0x82, 3⟩, ⟨0x02, 2⟩, ⟨0x83, 2⟩, ⟨0x84, 2⟩, ⟨0x05, 2⟩]⟩ =
        some (find_device_and_endpoints 3 exDevs none ⟨0, 0, 0, 0⟩).config.ep_out :=
  (find_device_and_endpoints_first_match 3 exDevs none ⟨0, 0, 0, 0⟩ (by decide)
    (by decide)).2.2 exSamsung ⟨0, [⟨0x81, 2⟩, ⟨0x82, 3⟩]⟩
    ⟨1, [⟨0x82, 3⟩, ⟨0x02, 2⟩, ⟨0x83, 2⟩, ⟨0x84, 2⟩, ⟨0x05, 2⟩]⟩ (by decide) (by decide)
    (by decide)

theorem find_device_and_endpoints_ret_zero (cnt : Int) (devs : List Device) (h : Option Nat)
    (c : DeviceConfig) (hret : (find_device_and_endpoints cnt devs h c).ret = 0) :
    0 ≤ cnt ∧ ∃ dev inter, selected devs = some (dev, inter) ∧ dev.openRet = 0 ∧
      find_device_and_endpoints cnt devs h c =
        ⟨0, ⟨dev.idProduct, inter.bInterfaceNumber, (firstBulkIn inter).getD 0,
          (firstBulkOut inter).getD 0⟩, some (devs.findIdx qualifies),
          [devs.findIdx qualifies]⟩ := by
  by_cases hcnt : cnt < 0
  · simp [find_device_and_endpoints, hcnt] at hret
  · have hc : 0 ≤ cnt := by omega
    refine ⟨hc, ?_⟩
    rw [find_device_and_endpoints_eq cnt devs h c hc] at hret ⊢
    cases hsel : selected devs with
    | none => rw [hsel] at hret; simp at hret
    | some p =>
      obtain ⟨dev, inter⟩ := p
      rw [hsel] at hret
      dsimp only at hret ⊢
      by_cases ho : dev.openRet = 0
      · exact ⟨dev, inter, rfl, ho, by rw [if_pos ho]⟩
      · rw [if_neg ho] at hret
        simp at hret

theorem isIn_eq_false_iff (ep : EndpointDescriptor) :
    isIn ep = false ↔ ep.bEndpointAddress &&& 0x80 = 0 := by
  have h := Nat.and_two_pow ep.bEndpointAddress 7
  have e : (2 : Nat) ^ 7 = 0x80 := by norm_num
  rw [e] at h
  unfold isIn LIBUSB_ENDPOINT_DIR_MASK LIBUSB_ENDPOINT_IN
  rw [h]
  cases ep.bEndpointAddress.testBit 7 <;> simp

theorem scanEndpoints_remove (pre post : List EndpointDescriptor) (ep : EndpointDescriptor)
    (hskip : scanEndpoint (scanEndpoints pre) ep = scanEndpoints pre) :
    scanEndpoints (pre ++ ep :: post) = scanEndpoints (pre ++ post) := by
  unfold scanEndpoints at hskip ⊢
  rw [List.foldl_append, List.foldl_cons, hskip, List.foldl_append]

/-- C2: when the resolver succeeds, `ep_in` is the address of the first endpoint
of the selected interface that is bulk with the direction bit set and `ep_out`
the address of the first bulk endpoint with the direction bit clear; removing a
non-bulk endpoint, or a bulk endpoint that comes after a bulk endpoint of the
same direction, leaves the result of the endpoint scan unchanged. -/
theorem find_device_and_endpoints_first_bulk_endpoints (cnt : Int) (devs : List Device)
    (h : Option Nat) (c : DeviceConfig)
    (hret : (find_device_and_endpoints cnt devs h c).ret = 0) :
    (∃ dev inter, selected devs = some (dev, inter) ∧
      (find_device_and_endpoints cnt devs h c).config.interface_num = inter.bInterfaceNumber ∧
      (∃ ep, inter.endpoint.find? (fun e => isBulk e && isIn e) = some ep ∧
        ep.bmAttributes &&& 3 = 2 ∧ ep.bEndpointAddress &&& 0x80 = 0x80 ∧
        (find_device_and_endpoints cnt devs h c).config.ep_in = ep.bEndpointAddress) ∧
      (∃ ep, inter.endpoint.find? (fun e => isBulk e && !isIn e) = some ep ∧
        ep.bmAttributes &&& 3 = 2 ∧ ep.bEndpointAddress &&& 0x80 = 0 ∧
        (find_device_and_endpoints cnt devs h c).config.ep_out = ep.bEndpointAddress)) ∧
    (∀ pre ep post, isBulk ep = false →
      scanEndpoints (pre ++ ep :: post) = scanEndpoints (pre ++ post)) ∧
    (∀ pre ep post, isBulk ep = true →
      (∃ e ∈ pre, isBulk e = true ∧ isIn e = isIn ep) →
      scanEndpoints (pre ++ ep :: post) = scanEndpoints (pre ++ post)) := by
  obtain ⟨-, dev, inter, hsel, -, heq⟩ := find_device_and_endpoints_ret_zero cnt devs h c hret
  refine ⟨⟨dev, inter, hsel, ?_, ?_, ?_⟩, ?_, ?_⟩
  · rw [heq]
  · have hpair : hasBulkPair inter = true :=
      List.find?_some ((selected_eq_some_iff devs dev inter).mp hsel).2
    obtain ⟨⟨a, ha⟩, -⟩ := firstBulk_of_hasBulkPair inter hpair
    have hp : bulkIn a = true := List.find?_some ha
    simp only [bulkIn, Bool.and_eq_true] at hp
    refine ⟨a, ha, ?_, ?_, by rw [heq]; simp [firstBulkIn, ha]⟩
    · simpa [isBulk, LIBUSB_TRANSFER_TYPE_MASK, LIBUSB_TRANSFER_TYPE_BULK] using hp.1
    · simpa [isIn, LIBUSB_ENDPOINT_DIR_MASK, LIBUSB_ENDPOINT_IN] using hp.2
  · have hpair : hasBulkPair inter = true :=
      List.find?_some ((selected_eq_some_iff devs dev inter).mp hsel).2
    obtain ⟨-, ⟨b, hb⟩⟩ := firstBulk_of_hasBulkPair inter hpair
    have hp : bulkOut b = true := List.find?_some hb
    simp only [bulkOut, Bool.and_eq_true, Bool.not_eq_true'] at hp
    refine ⟨b, hb, ?_, (isIn_eq_false_iff b).mp hp.2, by rw [heq]; simp [firstBulkOut, hb]⟩
    simpa [isBulk, LIBUSB_TRANSFER_TYPE_MASK, LIBUSB_TRANSFER_TYPE_BULK] using hp.1
  · intro pre ep post hb
    apply scanEndpoints_remove
    simp [scanEndpoint, hb]
  · rintro pre ep post hb ⟨e, he, heb, hdir⟩
    apply scanEndpoints_remove
    have hfold := foldl_scanEndpoint pre ⟨false, false, 0, 0⟩
    cases hi : isIn ep with
    | true =>
      have hfi : (scanEndpoints pre).found_in = true := by
        unfold scanEndpoints
        rw [hfold]
        simp only [Bool.false_or, List.any_eq_true]
        exact ⟨e, he, by simp [bulkIn, heb, hdir, hi]⟩
      simp [scanEndpoint, hb, hi, hfi]
    | false =>
      have hfo : (scanEndpoints pre).found_out = true := by
        unfold scanEndpoints
        rw [hfold]
        simp only [Bool.false_or, List.any_eq_true]
        exact ⟨e, he, by simp [bulkOut, heb, hdir, hi]⟩
      simp [scanEndpoint, hb, hi, hfo]

/-- Witness for C2: the Samsung device of the example list, whose second
interface has an interrupt endpoint first and two bulk endpoints of each
direction. -/
theorem find_device_and_endpoints_first_bulk_endpoints_witness :
    (find_device_and_endpoints 3 exDevs none ⟨0, 0, 0, 0⟩).ret = 0 ∧
    ∃ dev inter, selected exDevs = some (dev, inter) ∧
      (find_device_and_endpoints 3 exDevs none ⟨0, 0, 0, 0⟩).config.interface_num
        = inter.bInterfaceNumber ∧
      (∃ ep, inter.endpoint.find? (fun e => isBulk e && isIn e) = some ep ∧
        ep.bmAttributes &&& 3 = 2 ∧ ep.bEndpointAddress &&& 0x80 = 0x80 ∧
        (find_device_and_endpoints 3 exDevs none ⟨0, 0, 0, 0⟩).config.ep_in
          = ep.bEndpointAddress) ∧
      (∃ ep, inter.endpoint.find? (fun e => isBulk e && !isIn e) = some ep ∧
        ep.bmAttributes &&& 3 = 2 ∧ ep.bEndpointAddress &&& 0x80 = 0 ∧
        (find_device_and_endpoints 3 exDevs none ⟨0, 0, 0, 0⟩).config.ep_out
          = ep.bEndpointAddress) :=
  ⟨by decide,
    (find_device_and_endpoints_first_bulk_endpoints 3 exDevs none ⟨0, 0, 0, 0⟩ (by decide)).1⟩

/-- C9 (counterexample): a failed device-list retrieval, a list without a match
and a failed open of a matched device leave the same return value `-1`, the
same `*config` and the same `*h`; and two different error codes of
`libusb_open` give the same result. -/
theorem find_device_and_endpoints_failures_coincide :
    (find_device_and_endpoints (-1) [] none ⟨0, 0, 0, 0⟩).ret = -1 ∧
    (find_device_and_endpoints 1 [exOther] none ⟨0, 0, 0, 0⟩).ret = -1 ∧
    (find_device_and_endpoints 1 [exOpenFail (-3)] none ⟨0, 0, 0, 0⟩).ret = -1 ∧
    (find_device_and_endpoints (-1) [] none ⟨0, 0, 0, 0⟩).config =
      (find_device_and_endpoints 1 [exOther] none ⟨0, 0, 0, 0⟩).config ∧
    (find_device_and_endpoints 1 [exOpenFail (-3)] none ⟨0, 0, 0, 0⟩).config =
      (find_device_and_endpoints 1 [exOther] none ⟨0, 0, 0, 0⟩).config ∧
    (find_device_and_endpoints (-1) [] none ⟨0, 0, 0, 0⟩).h =
      (find_device_and_endpoints 1 [exOther] none ⟨0, 0, 0, 0⟩).h ∧
    (find_device_and_endpoints 1 [exOpenFail (-3)] none ⟨0, 0, 0, 0⟩).h =
      (find_device_and_endpoints 1 [exOther] none ⟨0, 0, 0, 0⟩).h ∧
    find_device_and_endpoints 1 [exOpenFail (-3)] none ⟨0, 0, 0, 0⟩ =
      find_device_and_endpoints 1 [exOpenFail (-12)] none ⟨0, 0, 0, 0⟩ := by
  decide

/-- C9 (amended): whatever the cause of the failure, a device list that could
not be retrieved, no matching device, or a failed open of the matched device,
the resolver returns `-1` and leaves `*config` and `*h` as they were; the error
code of `libusb_open` is not part of the result. -/
theorem find_device_and_endpoints_failure_uniform (cnt : Int) (devs : List Device)
    (h : Option Nat) (c : DeviceConfig)
    (hfail : cnt < 0 ∨ selected devs = none ∨
      ∃ dev inter, selected devs = some (dev, inter) ∧ dev.openRet ≠ 0) :
    (find_device_and_endpoints cnt devs h c).ret = -1 ∧
      (find_device_and_endpoints cnt devs h c).config = c ∧
      (find_device_and_endpoints cnt devs h c).h = h := by
  by_cases hcnt : cnt < 0
  · simp [find_device_and_endpoints, hcnt]
  · have hc : 0 ≤ cnt := by omega
    rw [find_device_and_endpoints_eq cnt devs h c hc]
    rcases hfail with h1 | h2 | ⟨dev, inter, hsel, ho⟩
    · exact absurd h1 hcnt
    · rw [h2]; exact ⟨rfl, rfl, rfl⟩
    · rw [hsel]
      dsimp only
      rw [if_neg ho]
      exact ⟨rfl, rfl, rfl⟩

/-- Witness for C9 (amended): the open of the matched device fails with `-3`. -/
theorem find_device_and_endpoints_failure_uniform_witness :
    (find_device_and_endpoints 1 [exOpenFail (-3)] none ⟨0, 0, 0, 0⟩).ret = -1 ∧
      (find_device_and_endpoints 1 [exOpenFail (-3)] none ⟨0, 0, 0, 0⟩).config = ⟨0, 0, 0, 0⟩ ∧
      (find_device_and_endpoints 1 [exOpenFail (-3)] none ⟨0, 0, 0, 0⟩).h = none :=
  find_device_and_endpoints_failure_uniform 1 [exOpenFail (-3)] none ⟨0, 0, 0, 0⟩
    (Or.inr (Or.inr ⟨exOpenFail (-3), ⟨0, [⟨0x81, 2⟩, ⟨0x01, 2⟩]⟩, by decide, by decide⟩))

/-! ## Lemmas on the string search -/

theorem cstring_append (a d : List Nat) : ∃ t, cstring (a ++ d) = cstring a ++ t := by
  induction a with
  | nil => exact ⟨cstring d, rfl⟩
  | cons b rest ih =>
    obtain ⟨t, ht⟩ := ih
    by_cases hb : b = 0
    · exact ⟨[], by simp [cstring, List.takeWhile_cons, hb]⟩
    · refine ⟨t, ?_⟩
      unfold cstring at ht ⊢
      simp only [List.cons_append, List.takeWhile_cons, bne_iff_ne, ne_eq, hb, not_false_eq_true,
        decide_True, if_true, ht]

theorem cstring_of_no_nul (l : List Nat) (h : ∀ b ∈ l, b ≠ 0) : cstring l = l := by
  unfold cstring
  rw [List.takeWhile_eq_self_iff]
  intro b hb
  simpa using h b hb

theorem cstring_length_le (l : List Nat) : (cstring l).length ≤ l.length :=
  (List.takeWhile_sublist _).length_le

theorem cstring_subset (l : List Nat) : ∀ b ∈ cstring l, b ∈ l := fun _ hb =>
  (List.takeWhile_sublist _).subset hb

theorem findSub_bound (n l : List Nat) (i : Nat) (h : findSub n l = some i) :
    i + n.length ≤ l.length := by
  induction l generalizing i with
  | nil =>
    cases n with
    | nil => simp [findSub] at h; simp [h]
    | cons a t => simp [findSub] at h
  | cons b rest ih =>
    unfold findSub at h
    by_cases hp : n.isPrefixOf (b :: rest) = true
    · rw [if_pos hp] at h
      cases h
      have := (List.isPrefixOf_iff_prefix.mp hp).length_le
      simpa using this
    · rw [if_neg hp] at h
      cases hf : findSub n rest with
      | none => simp [hf] at h
      | some j =>
        simp only [hf, Option.map_some', Option.some.injEq] at h
        have := ih j hf
        simp only [List.length_cons]
        omega

theorem findSub_append (n l m : List Nat) (i : Nat) (h : findSub n l = some i) :
    findSub n (l ++ m) = some i := by
  induction l generalizing i with
  | nil =>
    cases n with
    | nil =>
      simp [findSub] at h
      subst h
      cases m <;> simp [findSub]
    | cons a t => simp [findSub] at h
  | cons b rest ih =>
    have hb := findSub_bound n (b :: rest) i h
    unfold findSub at h
    rw [List.cons_append]
    unfold findSub
    by_cases hp : n.isPrefixOf (b :: rest) = true
    · rw [if_pos hp] at h
      have hp2 : n.isPrefixOf (b :: (rest ++ m)) = true := by
        rw [List.isPrefixOf_iff_prefix] at hp ⊢
        exact hp.trans (by simp)
      rw [if_pos hp2]
      exact h
    · rw [if_neg hp] at h
      have hp2 : ¬ n.isPrefixOf (b :: (rest ++ m)) = true := by
        intro hc
        apply hp
        rw [List.isPrefixOf_iff_prefix] at hc ⊢
        have h1 : b :: rest <+: b :: (rest ++ m) := by
          simp
        exact List.prefix_of_prefix_length_le hc h1 (by omega)
      rw [if_neg hp2]
      cases hf : findSub n rest with
      | none => simp [hf] at h
      | some j =>
        simp only [hf, Option.map_some', Option.some.injEq] at h
        rw [ih j hf, Option.map_some', h]

theorem strstr_append (mem d n : List Nat) (p : Nat) (h : strstr mem n = some p) :
    strstr (mem ++ d) n = some p := by
  obtain ⟨t, ht⟩ := cstring_append mem d
  unfold strstr at h ⊢
  rw [ht]
  exact findSub_append n _ t p h

theorem strstr_bound (mem n : List Nat) (p : Nat) (h : strstr mem n = some p) :
    p + n.length ≤ mem.length :=
  le_trans (findSub_bound n _ p h) (cstring_length_le mem)

theorem findSub_none_of_head_not_mem (a : Nat) (t l : List Nat) (h : a ∉ l) :
    findSub (a :: t) l = none := by
  induction l with
  | nil => simp [findSub]
  | cons b rest ih =>
    have hab : a ≠ b := fun e => h (by simp [e])
    have hr : a ∉ rest := fun e => h (List.mem_cons_of_mem _ e)
    simp [findSub, List.isPrefixOf, hab, ih hr]

theorem strstr_none_of_head_not_mem (a : Nat) (t mem : List Nat) (h : a ∉ mem) :
    strstr mem (a :: t) = none :=
  findSub_none_of_head_not_mem a t _ (fun hc => h (cstring_subset mem a hc))

/-! ## Lemmas on the receive loop -/

theorem checkRet_next (r : Read) (s s1 : RxState) (h : checkRet r s = Iter.next s1) :
    s1 = s ∧ r.ret = 0 := by
  unfold checkRet at h
  by_cases hr : r.ret ≠ 0
  · rw [if_pos hr] at h; cases h
  · rw [if_neg hr] at h
    cases h
    exact ⟨rfl, not_not.mp hr⟩

theorem checkRet_stop (r : Read) (s s1 : RxState) (why : Stop)
    (h : checkRet r s = Iter.stop s1 why) :
    why = Stop.readStatus ∧ r.ret ≠ 0 ∧ s1.total_data = s.total_data ∧
      s1.start_found = s.start_found ∧ s1.stdout = s.stdout ++ s.total_data := by
  unfold checkRet at h
  by_cases hr : r.ret ≠ 0
  · rw [if_pos hr] at h
    cases h
    refine ⟨rfl, hr, ?_, ?_, ?_⟩
    · split <;> rfl
    · split <;> rfl
    · by_cases hl : s.total_len > 0
      · rw [if_pos hl]
      · rw [if_neg hl]
        have : s.total_data = [] := by
          unfold RxState.total_len at hl
          exact List.length_eq_zero.mp (by omega)
        simp [this]
  · rw [if_neg hr] at h; cases h

theorem checkRet_ne_fault (r : Read) (s : RxState) : checkRet r s ≠ Iter.fault := by
  unfold checkRet
  split <;> simp

theorem iteration_eq (s : RxState) (r : Read) :
    iteration s r =
      if r.data = [] then checkRet r s
      else if MAX_DATA_SIZE ≤ s.total_len + r.data.length then Iter.stop s Stop.capacity
      else
        match strstr (s.total_data ++ r.data) startMarker with
        | none =>
          if s.start_found = true then Iter.fault
          else checkRet r ⟨s.total_data ++ r.data, false, s.stdout⟩
        | some p =>
          if ((strstr ((s.total_data ++ r.data).drop (p + 2)) startMarker).isSome ||
              (strstr ((s.total_data ++ r.data).drop (p + 2)) altEndMarker).isSome) = true then
            Iter.stop ⟨s.total_data ++ r.data, true, s.stdout ++ (s.total_data ++ r.data)⟩
              Stop.endMarker
          else checkRet r ⟨s.total_data ++ r.data, true, s.stdout⟩ := by
  unfold iteration
  by_cases hd : r.data = []
  · simp [hd]
  · have hlen : r.data.length > 0 := List.length_pos.mpr hd
    by_cases hcap : MAX_DATA_SIZE ≤ s.total_len + r.data.length
    · simp [hd, hlen, hcap]
    · simp only [hlen, if_true, ge_iff_le, hcap, if_false, hd]
      cases hsp : strstr (s.total_data ++ r.data) startMarker <;>
        cases hsf : s.start_found <;> simp

theorem iteration_next (s s1 : RxState) (r : Read) (h : iteration s r = Iter.next s1) :
    s1.total_data = s.total_data ++ r.data ∧ s1.stdout = s.stdout ∧ r.ret = 0 ∧
      (s.total_len < MAX_DATA_SIZE → s1.total_len < MAX_DATA_SIZE) ∧
      ((s.start_found = true → (strstr s.total_data startMarker).isSome = true) →
        s1.start_found = true → (strstr s1.total_data startMarker).isSome = true) := by
  rw [iteration_eq] at h
  split at h
  · rename_i hd
    obtain ⟨rfl, hr⟩ := checkRet_next _ _ _ h
    exact ⟨by simp [hd], rfl, hr, fun x => x, fun x => x⟩
  · split at h
    · cases h
    · rename_i hcap
      have hb : s.total_len < MAX_DATA_SIZE →
          (s.total_data ++ r.data).length < MAX_DATA_SIZE := by
        intro _
        simp only [RxState.total_len, List.length_append] at hcap ⊢
        omega
      split at h
      · split at h
        · cases h
        · obtain ⟨rfl, hr⟩ := checkRet_next _ _ _ h
          exact ⟨rfl, rfl, hr, hb, fun _ hc => Bool.noConfusion hc⟩
      · rename_i p hp
        split at h
        · cases h
        · obtain ⟨rfl, hr⟩ := checkRet_next _ _ _ h
          exact ⟨rfl, rfl, hr, hb, fun _ _ => by simp [hp]⟩

theorem iteration_stop (s s1 : RxState) (r : Read) (why : Stop)
    (h : iteration s r = Iter.stop s1 why) :
    (why = Stop.capacity ∧ s1 = s ∧ r.data ≠ [] ∧
        MAX_DATA_SIZE ≤ s.total_len + r.data.length) ∨
    (why ≠ Stop.capacity ∧ s1.total_data = s.total_data ++ r.data ∧
        s1.stdout = s.stdout ++ (s.total_data ++ r.data) ∧
        (s.total_len < MAX_DATA_SIZE → s1.total_len < MAX_DATA_SIZE) ∧
        (why = Stop.readStatus → r.ret ≠ 0)) := by
  rw [iteration_eq] at h
  split at h
  · rename_i hd
    obtain ⟨rfl, hr, h1, -, h3⟩ := checkRet_stop _ _ _ _ h
    refine Or.inr ⟨by simp, by simp [h1, hd], by simp [h3, hd], ?_, fun _ => hr⟩
    intro hlt
    unfold RxState.total_len at hlt ⊢
    rw [h1]; exact hlt
  · rename_i hd
    split at h
    · rename_i hcap
      cases h
      exact Or.inl ⟨rfl, rfl, hd, hcap⟩
    · rename_i hcap
      have hb : (s.total_data ++ r.data).length < MAX_DATA_SIZE := by
        simp only [RxState.total_len, List.length_append] at hcap ⊢
        omega
      split at h
      · split at h
        · cases h
        · obtain ⟨rfl, hr, h1, -, h3⟩ := checkRet_stop _ _ _ _ h
          refine Or.inr ⟨by simp, h1, h3, ?_, fun _ => hr⟩
          intro _
          unfold RxState.total_len
          rw [h1]; exact hb
      · split at h
        · cases h
          exact Or.inr ⟨by simp, rfl, rfl, fun _ => hb, fun hc => by cases hc⟩
        · obtain ⟨rfl, hr, h1, -, h3⟩ := checkRet_stop _ _ _ _ h
          refine Or.inr ⟨by simp, h1, h3, ?_, fun _ => hr⟩
          intro _
          unfold RxState.total_len
          rw [h1]; exact hb

theorem iteration_ne_fault (s : RxState) (r : Read)
    (hinv : s.start_found = true → (strstr s.total_data startMarker).isSome = true) :
    iteration s r ≠ Iter.fault := by
  rw [iteration_eq]
  split
  · exact checkRet_ne_fault _ _
  · split
    · simp
    · split
      · rename_i hnone
        split
        · rename_i hsf
          have hs := hinv hsf
          obtain ⟨p, hp⟩ := Option.isSome_iff_exists.mp hs
          rw [strstr_append _ r.data _ p hp] at hnone
          cases hnone
        · exact checkRet_ne_fault _ _
      · split
        · simp
        · exact checkRet_ne_fault _ _

theorem iteration_of_ret_ne_zero (s : RxState) (r : Read)
    (hinv : s.start_found = true → (strstr s.total_data startMarker).isSome = true)
    (hr : r.ret ≠ 0) (hfit : s.total_len + r.data.length < MAX_DATA_SIZE) :
    ∃ s1 why, iteration s r = Iter.stop s1 why ∧ why ≠ Stop.capacity ∧
      s1.total_data = s.total_data ++ r.data ∧
      s1.stdout = s.stdout ++ (s.total_data ++ r.data) := by
  cases hit : iteration s r with
  | next s1 => exact absurd (iteration_next s s1 r hit).2.2.1 hr
  | fault => exact absurd hit (iteration_ne_fault s r hinv)
  | stop s1 why =>
    rcases iteration_stop s s1 r why hit with ⟨-, -, -, hcap⟩ | ⟨hw, h1, h2, -, -⟩
    · omega
    · exact ⟨s1, why, rfl, hw, h1, h2⟩

theorem received_nil : received [] = [] := rfl

theorem received_cons (r : Read) (rest : List Read) :
    received (r :: rest) = r.data ++ received rest := by
  simp [received]

theorem received_append (a b : List Read) : received (a ++ b) = received a ++ received b := by
  simp [received]

theorem rxLoop_running (reads : List Read) (s s1 : RxState) (n : Nat)
    (h : rxLoop reads s n = RxOutcome.running s1) :
    s1.total_data = s.total_data ++ received reads ∧ s1.stdout = s.stdout ∧
      (∀ r ∈ reads, r.ret = 0) ∧
      (s.total_len < MAX_DATA_SIZE → s1.total_len < MAX_DATA_SIZE) ∧
      ((s.start_found = true → (strstr s.total_data startMarker).isSome = true) →
        s1.start_found = true → (strstr s1.total_data startMarker).isSome = true) := by
  induction reads generalizing s n with
  | nil =>
    simp only [rxLoop, RxOutcome.running.injEq] at h
    subst h
    simp [received_nil]
  | cons r rest ih =>
    unfold rxLoop at h
    cases hit : iteration s r with
    | next s2 =>
      rw [hit] at h
      obtain ⟨a1, a2, a3, a4, a5⟩ := iteration_next s s2 r hit
      obtain ⟨b1, b2, b3, b4, b5⟩ := ih s2 (n + 1) h
      refine ⟨?_, ?_, ?_, fun x => b4 (a4 x), fun x => b5 (a5 x)⟩
      · rw [b1, a1, received_cons, List.append_assoc]
      · rw [b2, a2]
      · intro x hx
        rcases List.mem_cons.mp hx with rfl | hx
        · exact a3
        · exact b3 x hx
    | stop s2 why => rw [hit] at h; cases h
    | fault => rw [hit] at h; cases h

theorem rxLoop_cons (r : Read) (rest : List Read) (s : RxState) (n : Nat) :
    rxLoop (r :: rest) s n =
      match iteration s r with
      | Iter.next s1 => rxLoop rest s1 (n + 1)
      | Iter.stop s1 why => RxOutcome.done s1 why (n + 1)
      | Iter.fault => RxOutcome.fault := rfl

theorem rxLoop_append (pre rest : List Read) (s sm : RxState) (n : Nat)
    (h : rxLoop pre s n = RxOutcome.running sm) :
    rxLoop (pre ++ rest) s n = rxLoop rest sm (n + pre.length) := by
  induction pre generalizing s n with
  | nil =>
    simp only [rxLoop, RxOutcome.running.injEq] at h
    subst h
    rfl
  | cons r pre ih =>
    rw [rxLoop_cons] at h
    rw [List.cons_append, rxLoop_cons]
    cases hit : iteration s r with
    | next s2 =>
      rw [hit] at h
      simp only
      rw [ih s2 (n + 1) h, List.length_cons]
      have e : n + 1 + pre.length = n + (pre.length + 1) := by omega
      rw [e]
    | stop s2 why => rw [hit] at h; cases h
    | fault => rw [hit] at h; cases h

theorem rxLoop_done_split (reads : List Read) (s s1 : RxState) (why : Stop) (n k : Nat)
    (h : rxLoop reads s n = RxOutcome.done s1 why k) :
    ∃ pre r post sm, reads = pre ++ r :: post ∧ k = n + pre.length + 1 ∧
      rxLoop pre s n = RxOutcome.running sm ∧ iteration sm r = Iter.stop s1 why := by
  induction reads generalizing s n with
  | nil => simp [rxLoop] at h
  | cons r rest ih =>
    unfold rxLoop at h
    cases hit : iteration s r with
    | next s2 =>
      rw [hit] at h
      obtain ⟨pre, r2, post, sm, e1, e2, e3, e4⟩ := ih s2 (n + 1) h
      refine ⟨r :: pre, r2, post, sm, by rw [e1]; rfl, by rw [e2, List.length_cons]; omega, ?_, e4⟩
      unfold rxLoop
      rw [hit]
      exact e3
    | stop s2 why2 =>
      rw [hit] at h
      simp only [RxOutcome.done.injEq] at h
      obtain ⟨rfl, rfl, rfl⟩ := h
      exact ⟨[], r, rest, s, rfl, rfl, rfl, hit⟩
    | fault => rw [hit] at h; cases h

theorem rxLoop_ne_fault (reads : List Read) (s : RxState) (n : Nat)
    (hinv : s.start_found = true → (strstr s.total_data startMarker).isSome = true) :
    rxLoop reads s n ≠ RxOutcome.fault := by
  induction reads generalizing s n with
  | nil => simp [rxLoop]
  | cons r rest ih =>
    unfold rxLoop
    cases hit : iteration s r with
    | next s2 => exact ih s2 (n + 1) ((iteration_next s s2 r hit).2.2.2.2 hinv)
    | stop s2 why => simp
    | fault => exact absurd hit (iteration_ne_fault s r hinv)

/-! ## Lemmas on `main` -/

theorem seenReads_fresh (st : ChunkState) (reads : List Read) :
    seenReads st (reads.map (fun r => ⟨r.ret, some r.data⟩)) = reads := by
  induction reads generalizing st with
  | nil => rfl
  | cons r rest ih =>
    simp only [List.map_cons, seenReads, bulk_read, List.take_left, ih]

theorem exEnv_reads (reads : List Read) : (exEnv reads).reads = reads :=
  seenReads_fresh _ reads

theorem main_of_done (env : Env) (hs : setupOk env) (s : RxState) (why : Stop) (n : Nat)
    (h : rxLoop env.reads rxInit 0 = RxOutcome.done s why n) :
    (main env).output = some s.stdout ∧ (main env).status = some 0 := by
  obtain ⟨h1, h2, h3, h4, h5, h6⟩ := hs
  simp [main, h1, h2, h3, h4, h5, h6, h, Run.output, Run.status]

theorem setupOk_exEnv (reads : List Read) : setupOk (exEnv reads) :=
  ⟨rfl, (by decide : (find_device_and_endpoints 3 exDevs none ⟨0, 0, 0, 0⟩).ret = 0), rfl, rfl,
    rfl, rfl⟩

theorem rxInit_inv :
    rxInit.start_found = true → (strstr rxInit.total_data startMarker).isSome = true :=
  fun h => Bool.noConfusion h

/-! ## Properties of the receive loop and of `main` -/

/-- C8: at every point of the receive loop, that is after any number `k` of
the reads of any sequence, `total_len` is below `MAX_DATA_SIZE`, whether the
loop is still running or has left by a `break`, so index `total_len` lies
inside the buffer; the bound needs no assumption on the chunk sizes and so
holds in particular for reads of at most 16384 bytes. The loop never
faults. -/
theorem rxLoop_total_len_lt (reads : List Read) (k : Nat) :
    match rxLoop (reads.take k) rxInit 0 with
    | RxOutcome.running s => s.total_len < MAX_DATA_SIZE
    | RxOutcome.done s _ _ => s.total_len < MAX_DATA_SIZE
    | RxOutcome.fault => False := by
  have h0 : rxInit.total_len < MAX_DATA_SIZE := by decide
  cases h : rxLoop (reads.take k) rxInit 0 with
  | running s => exact (rxLoop_running _ _ _ _ h).2.2.2.1 h0
  | fault => exact rxLoop_ne_fault _ _ _ rxInit_inv h
  | done s why n =>
    obtain ⟨pre, r, post, sm, -, -, hrun, hit⟩ := rxLoop_done_split _ _ _ _ _ _ h
    have hm := (rxLoop_running _ _ _ _ hrun).2.2.2.1 h0
    rcases iteration_stop sm s r why hit with ⟨-, rfl, -, -⟩ | ⟨-, -, -, hlt, -⟩
    · exact hm
    · exact hlt hm

/-- C10: when the receive loop leaves on end-marker detection after `k` reads,
the bytes written to standard output are the chunks of these `k` reads in
order, which is the whole of `total_data[0 .. total_len)`; a run whose setup
succeeded emits exactly these bytes. -/
theorem rxLoop_end_marker_output (env : Env) (s : RxState) (k : Nat) (hs : setupOk env)
    (h : rxLoop env.reads rxInit 0 = RxOutcome.done s Stop.endMarker k) :
    s.stdout = received (env.reads.take k) ∧ s.stdout = s.total_data ∧
      s.stdout.length = s.total_len ∧ (main env).output = some (received (env.reads.take k)) := by
  obtain ⟨pre, r, post, sm, hreads, hk, hrun, hit⟩ := rxLoop_done_split _ _ _ _ _ _ h
  obtain ⟨a1, a2, -, -, -⟩ := rxLoop_running _ _ _ _ hrun
  have htake : env.reads.take k = pre ++ [r] := by
    rw [hreads, hk, Nat.zero_add, List.take_append_eq_append_take]
    simp
  have hout : s.stdout = received (env.reads.take k) ∧ s.stdout = s.total_data := by
    rcases iteration_stop sm s r _ hit with ⟨hc, -⟩ | ⟨-, b1, b2, -, -⟩
    · cases hc
    · rw [htake, received_append, b2, b1, a1, a2]
      simp [rxInit, received]
  refine ⟨hout.1, hout.2, ?_, ?_⟩
  · rw [hout.2]; rfl
  · rw [(main_of_done env hs s _ k h).1, hout.1]

/-- Witness for C10: the chunks `"XX"`, `"@#ABCD"`, `"EF#@"`. -/
theorem rxLoop_end_marker_output_witness :
    [88, 88, 64, 35, 65, 66, 67, 68, 69, 70, 35, 64] = received ((exEnv exChunks).reads.take 3) ∧
      (main (exEnv exChunks)).output = some (received ((exEnv exChunks).reads.take 3)) :=
  have h := rxLoop_end_marker_output (exEnv exChunks)
    ⟨[88, 88, 64, 35, 65, 66, 67, 68, 69, 70, 35, 64], true,
      [88, 88, 64, 35, 65, 66, 67, 68, 69, 70, 35, 64]⟩ 3 (setupOk_exEnv exChunks) (by decide)
  ⟨h.1, h.2.2.2⟩

/-- In terms of the reads as the loop body sees them: in a run whose setup
succeeded, if the loop is still running after the reads `pre` and the next read
`r` comes with a non-success status and a chunk that still fits below the
capacity, then the loop leaves at that read, standard output holds the chunks
of `pre` followed by the chunk of `r`, and the exit status is 0. The chunk of
`r` is `chunk_buf[0 .. transferred)`; it is what the read transferred only when
the read wrote its count. -/
theorem main_read_failure (env : Env) (pre rest : List Read) (r : Read) (sm : RxState)
    (hs : setupOk env) (hreads : env.reads = pre ++ r :: rest)
    (hpre : rxLoop pre rxInit 0 = RxOutcome.running sm) (hr : r.ret ≠ 0)
    (hfit : (received pre).length + r.data.length < MAX_DATA_SIZE) :
    (∃ s why, rxLoop env.reads rxInit 0 = RxOutcome.done s why (pre.length + 1)) ∧
      (main env).output = some (received pre ++ r.data) ∧ (main env).status = some 0 := by
  obtain ⟨a1, a2, -, -, a5⟩ := rxLoop_running _ _ _ _ hpre
  have htd : sm.total_data = received pre := by rw [a1]; rfl
  have hso : sm.stdout = [] := by rw [a2]; rfl
  have hfit2 : sm.total_len + r.data.length < MAX_DATA_SIZE := by
    unfold RxState.total_len
    rw [htd]; exact hfit
  obtain ⟨s1, why, hit, -, -, b2⟩ := iteration_of_ret_ne_zero sm r (a5 rxInit_inv) hr hfit2
  have hloop : rxLoop env.reads rxInit 0 = RxOutcome.done s1 why (pre.length + 1) := by
    rw [hreads, rxLoop_append pre (r :: rest) rxInit sm 0 hpre, rxLoop_cons, hit, Nat.zero_add]
  obtain ⟨c1, c2⟩ := main_of_done env hs s1 why _ hloop
  refine ⟨⟨s1, why, hloop⟩, ?_, c2⟩
  rw [c1, b2, hso, htd, List.nil_append]

/-- An instance: after the chunk `"@#"` a read times out having delivered `"q"`
and written its count; the output is `"@#q"`. -/
theorem main_read_failure_witness :
    (∃ s why, rxLoop (exEnv exTimeout).reads rxInit 0 = RxOutcome.done s why 2) ∧
      (main (exEnv exTimeout)).output = some [64, 35, 113] ∧
      (main (exEnv exTimeout)).status = some 0 :=
  main_read_failure (exEnv exTimeout) [⟨0, [64, 35]⟩] [⟨0, [122, 122]⟩] ⟨-7, [113]⟩
    ⟨[64, 35], true, []⟩ (setupOk_exEnv exTimeout) rfl (by decide) (by decide) (by decide)

/-- An instance: the first read times out and writes the count 0; nothing is
written and the exit status is 0. -/
theorem main_read_failure_empty :
    (main (exEnv [⟨-7, []⟩])).output = some [] ∧ (main (exEnv [⟨-7, []⟩])).status = some 0 := by
  decide

theorem seenReads_append (st : ChunkState) (a b : List Transfer) :
    seenReads st (a ++ b) = seenReads st a ++ seenReads (a.foldl bulk_read st) b := by
  induction a generalizing st with
  | nil => rfl
  | cons t a ih =>
    show _ :: seenReads (bulk_read st t) (a ++ b) = _ :: (_ ++ _)
    rw [ih]
    rfl

/-- Where the failing read writes its count, the run behaves as the
specification says: if the loop is still running after the reads `pre`, and the
next read returns a non-success status after writing `bytes` and their number,
which still fit below the capacity, then standard output holds everything
received so far followed by `bytes` (nothing when there is none), and the exit
status is 0. -/
theorem main_read_failure_written (env : Env) (pre rest : List Transfer) (t : Transfer)
    (bytes : List Nat) (sm : RxState) (hs : setupOk env)
    (htr : env.transfers = pre ++ t :: rest) (hw : t.written = some bytes)
    (hpre : rxLoop (seenReads ⟨env.sendTransferred, env.chunkMem⟩ pre) rxInit 0 =
      RxOutcome.running sm)
    (hr : t.ret ≠ 0) (hfit : sm.total_len + bytes.length < MAX_DATA_SIZE) :
    (main env).output = some (sm.total_data ++ bytes) ∧ (main env).status = some 0 := by
  have htd : sm.total_data = received (seenReads ⟨env.sendTransferred, env.chunkMem⟩ pre) := by
    rw [(rxLoop_running _ _ _ _ hpre).1]; rfl
  have hreads : env.reads = seenReads ⟨env.sendTransferred, env.chunkMem⟩ pre ++
      ⟨t.ret, bytes⟩ :: seenReads
        (bulk_read (pre.foldl bulk_read ⟨env.sendTransferred, env.chunkMem⟩) t) rest := by
    unfold Env.reads
    rw [htr, seenReads_append]
    simp only [seenReads, bulk_read, hw, List.take_left]
  have hfit2 : (received (seenReads ⟨env.sendTransferred, env.chunkMem⟩ pre)).length +
      (⟨t.ret, bytes⟩ : Read).data.length < MAX_DATA_SIZE := by
    rw [← htd]; exact hfit
  obtain ⟨-, h1, h2⟩ := main_read_failure env _ _ ⟨t.ret, bytes⟩ sm hs hreads hpre hr hfit2
  exact ⟨by rw [h1, htd], h2⟩

/-- C7 (the code at the failing input): the command write leaves 4 in
`transferred`, and the first read returns `LIBUSB_ERROR_NO_DEVICE` without
writing the count; no byte has been received, but the loop body takes the stale
count, appends the 4 bytes found in `chunk_buf` and writes them to standard
output. Likewise a read that fails in this way after the chunk `"AB"` makes the
run emit `"ABAB"`. The exit status is 0 both times. -/
theorem main_stale_count_output :
    setupOk exStale ∧ exStale.transfers = [⟨-4, none⟩] ∧
      exStale.reads = [⟨-4, [0, 0, 0, 0]⟩] ∧
      (main exStale).output = some [0, 0, 0, 0] ∧ (main exStale).status = some 0 ∧
      setupOk exStaleAfter ∧
      exStaleAfter.reads = [⟨0, [65, 66]⟩, ⟨-4, [65, 66]⟩] ∧
      (main exStaleAfter).output = some [65, 66, 65, 66] ∧
      (main exStaleAfter).status = some 0 := by
  refine ⟨⟨rfl, ?_, rfl, rfl, rfl, rfl⟩, rfl, ?_, ?_, ?_, ⟨rfl, ?_, rfl, rfl, rfl, rfl⟩,
    ?_, ?_, ?_⟩ <;> decide

/-- C5 (counterexample): on the chunks `"XX"`, `"@#ABCD"`, `"EF#@"` the run
does not emit `"@#ABCDEF#@"`. -/
theorem main_exChunks_not_stripped :
    (main (exEnv exChunks)).output ≠ some [64, 35, 65, 66, 67, 68, 69, 70, 35, 64] := by
  decide

/-- C5 (amended): on the chunks `"XX"`, `"@#ABCD"`, `"EF#@"` the run emits
`"XX@#ABCDEF#@"`, the whole accumulator with the bytes before the start
marker; the loop is still running after the first and after the second chunk
and leaves on end-marker detection after the third. -/
theorem main_exChunks_output :
    (main (exEnv exChunks)).output = some [88, 88, 64, 35, 65, 66, 67, 68, 69, 70, 35, 64] ∧
      rxLoop (exChunks.take 1) rxInit 0 = RxOutcome.running ⟨[88, 88], false, []⟩ ∧
      rxLoop (exChunks.take 2) rxInit 0 =
        RxOutcome.running ⟨[88, 88, 64, 35, 65, 66, 67, 68], true, []⟩ ∧
      rxLoop exChunks rxInit 0 =
        RxOutcome.done ⟨[88, 88, 64, 35, 65, 66, 67, 68, 69, 70, 35, 64], true,
          [88, 88, 64, 35, 65, 66, 67, 68, 69, 70, 35, 64]⟩ Stop.endMarker 3 := by
  decide

/-- C6 (the code at the failing input): when the bulk write of the command
fails, nothing is written but the exit status is 0. -/
theorem main_send_failure_status :
    setupOk { exSendFail with sendRet := 0 } ∧ exSendFail.sendRet ≠ 0 ∧
      (main exSendFail).output = some [] ∧ (main exSendFail).status = some 0 := by
  refine ⟨⟨rfl, ?_, rfl, rfl, rfl, rfl⟩, ?_, ?_, ?_⟩ <;> decide

/-- The three failures before the interface is claimed: a failed
`libusb_init`, a failed resolver and a failed claim end the run with status 1
and nothing written. -/
theorem main_setup_failure (env : Env)
    (h : env.initRet ≠ 0 ∨
      (find_device_and_endpoints env.cnt env.devs none ⟨0, 0, 0, 0⟩).ret ≠ 0 ∨
      env.claimRet ≠ 0) :
    (main env).output = some [] ∧ (main env).status = some 1 := by
  unfold main
  by_cases h1 : env.initRet ≠ 0
  · simp [h1, Run.output, Run.status]
  · by_cases h2 : (find_device_and_endpoints env.cnt env.devs none ⟨0, 0, 0, 0⟩).ret ≠ 0
    · simp [h1, h2, Run.output, Run.status]
    · have h3 : env.claimRet ≠ 0 := by
        rcases h with h | h | h
        · exact absurd h h1
        · exact absurd h h2
        · exact h
      simp [h1, h2, h3, Run.output, Run.status]

theorem rxLoop_no_start (reads : List Read) (s : RxState) (n : Nat)
    (hsf : s.start_found = false) (hno : 64 ∉ s.total_data ++ received reads)
    (hret : ∀ r ∈ reads, r.ret = 0)
    (hfit : s.total_len + (received reads).length < MAX_DATA_SIZE) :
    rxLoop reads s n = RxOutcome.running ⟨s.total_data ++ received reads, false, s.stdout⟩ := by
  induction reads generalizing s n with
  | nil =>
    obtain ⟨td, sf, out⟩ := s
    simp only at hsf
    subst hsf
    simp [rxLoop, received_nil]
  | cons r rest ih =>
    have hr : r.ret = 0 := hret r (List.mem_cons_self _ _)
    have hrest : ∀ x ∈ rest, x.ret = 0 := fun x hx => hret x (List.mem_cons_of_mem _ hx)
    rw [received_cons] at hno hfit
    rw [rxLoop_cons, iteration_eq, received_cons]
    by_cases hd : r.data = []
    · rw [if_pos hd]
      simp only [checkRet, hr, ne_eq, not_true_eq_false, if_false]
      rw [hd, List.nil_append] at hno hfit ⊢
      exact ih s (n + 1) hsf hno hrest hfit
    · rw [if_neg hd]
      have hcap : ¬ MAX_DATA_SIZE ≤ s.total_len + r.data.length := by
        rw [List.length_append] at hfit
        omega
      rw [if_neg hcap]
      have hnone : strstr (s.total_data ++ r.data) startMarker = none := by
        apply strstr_none_of_head_not_mem
        intro hc
        apply hno
        rw [← List.append_assoc]
        exact List.mem_append_left _ hc
      rw [hnone]
      simp only [hsf, Bool.false_eq_true, if_false, checkRet, hr, ne_eq, not_true_eq_false]
      rw [ih ⟨s.total_data ++ r.data, false, s.stdout⟩ (n + 1) rfl
        (by simpa [List.append_assoc] using hno) hrest
        (by
          simp only [RxState.total_len, List.length_append] at hfit ⊢
          omega)]
      simp [List.append_assoc]

theorem exChunk_length : exChunk.data.length = 16384 := List.length_replicate _ _

theorem exChunk_no_start : 64 ∉ exChunk.data := fun h => by
  have := List.eq_of_mem_replicate h
  omega

theorem rxLoop_capacity (pre rest : List Read) (r : Read) (hno : 64 ∉ received pre)
    (hret : ∀ x ∈ pre, x.ret = 0) (hfit : (received pre).length < MAX_DATA_SIZE)
    (hr : r.data ≠ []) (hcap : MAX_DATA_SIZE ≤ (received pre).length + r.data.length) :
    rxLoop (pre ++ r :: rest) rxInit 0 =
      RxOutcome.done ⟨received pre, false, []⟩ Stop.capacity (pre.length + 1) := by
  have hpre := rxLoop_no_start pre rxInit 0 rfl (by simpa [rxInit] using hno) hret
    (by simpa [rxInit, RxState.total_len] using hfit)
  have hcap2 : MAX_DATA_SIZE ≤
      (⟨rxInit.total_data ++ received pre, false, rxInit.stdout⟩ : RxState).total_len
        + r.data.length := by
    simpa [rxInit, RxState.total_len] using hcap
  rw [rxLoop_append _ _ _ _ _ hpre, rxLoop_cons, iteration_eq, if_neg hr, if_pos hcap2]
  simp [rxInit]

theorem received_exChunks3 : received [exChunk, exChunk, exChunk] =
    exChunk.data ++ (exChunk.data ++ (exChunk.data ++ [])) := by
  rw [received_cons, received_cons, received_cons, received_nil]

theorem received_exChunks3_length : (received [exChunk, exChunk, exChunk]).length = 49152 := by
  rw [received_exChunks3]
  simp only [List.length_append, exChunk_length, List.length_nil]

/-- C4 (the code at the failing input): after three full chunks of 16384
bytes the fourth would bring the total to 65536; the loop leaves by the
capacity `break` with 49152 bytes accumulated, and the run ends with status 0
and nothing written to standard output. -/
theorem main_overflow_discards :
    (∃ s, rxLoop exFull rxInit 0 = RxOutcome.done s Stop.capacity 4 ∧
      s.total_len = 49152 ∧ s.stdout = []) ∧
    (main (exEnv exFull)).output = some [] ∧ (main (exEnv exFull)).status = some 0 := by
  have hloop : rxLoop exFull rxInit 0 =
      RxOutcome.done ⟨received [exChunk, exChunk, exChunk], false, []⟩ Stop.capacity 4 :=
    rxLoop_capacity [exChunk, exChunk, exChunk] [] exChunk
      (by
        rw [received_exChunks3]
        simp only [List.append_nil, List.mem_append, not_or]
        exact ⟨exChunk_no_start, exChunk_no_start, exChunk_no_start⟩)
      (by
        intro r hr
        simp only [List.mem_cons, List.mem_singleton, List.not_mem_nil, or_false, or_self] at hr
        rw [hr]; rfl)
      (by rw [received_exChunks3_length]; decide)
      (List.ne_nil_of_length_pos (by rw [exChunk_length]; omega))
      (by rw [received_exChunks3_length, exChunk_length]; decide)
  have hloop2 : rxLoop (exEnv exFull).reads rxInit 0 =
      RxOutcome.done ⟨received [exChunk, exChunk, exChunk], false, []⟩ Stop.capacity 4 := by
    rw [exEnv_reads]; exact hloop
  obtain ⟨c1, c2⟩ := main_of_done (exEnv exFull) (setupOk_exEnv exFull) _ _ _ hloop2
  exact ⟨⟨_, hloop, received_exChunks3_length, rfl⟩, c1, c2⟩

/-! ## Frames: the output on a start marker followed by an end marker -/


theorem firstEnd_isSome (l : List Nat) :
    (firstEnd l).isSome =
      ((findSub startMarker l).isSome || (findSub altEndMarker l).isSome) := by
  unfold firstEnd
  cases findSub startMarker l <;> cases findSub altEndMarker l <;> rfl

theorem firstEnd_bound (l : List Nat) (q : Nat) (h : firstEnd l = some q) :
    q + 2 ≤ l.length := by
  unfold firstEnd at h
  cases ha : findSub startMarker l with
  | none =>
    cases hb : findSub altEndMarker l with
    | none => simp [ha, hb] at h
    | some b =>
      simp only [ha, hb, Option.some.injEq] at h
      have := findSub_bound _ _ _ hb
      simp only [altEndMarker, List.length_cons, List.length_nil] at this
      omega
  | some a =>
    have h1 := findSub_bound _ _ _ ha
    simp only [startMarker, List.length_cons, List.length_nil] at h1
    cases hb : findSub altEndMarker l with
    | none =>
      simp only [ha, hb, Option.some.injEq] at h
      omega
    | some b =>
      simp only [ha, hb, Option.some.injEq] at h
      omega

theorem firstEnd_append_le (l m : List Nat) (q1 : Nat) (h : firstEnd l = some q1) :
    ∃ q, firstEnd (l ++ m) = some q ∧ q ≤ q1 := by
  unfold firstEnd at h ⊢
  cases ha : findSub startMarker l with
  | none =>
    cases hb : findSub altEndMarker l with
    | none => simp [ha, hb] at h
    | some b =>
      simp only [ha, hb, Option.some.injEq] at h
      rw [findSub_append _ _ m _ hb]
      cases findSub startMarker (l ++ m) with
      | none => exact ⟨b, rfl, by omega⟩
      | some a => exact ⟨min a b, rfl, by omega⟩
  | some a =>
    rw [findSub_append _ _ m _ ha]
    cases hb : findSub altEndMarker l with
    | none =>
      simp only [ha, hb, Option.some.injEq] at h
      cases findSub altEndMarker (l ++ m) with
      | none => exact ⟨a, rfl, by omega⟩
      | some b => exact ⟨min a b, rfl, by omega⟩
    | some b =>
      simp only [ha, hb, Option.some.injEq] at h
      rw [findSub_append _ _ m _ hb]
      exact ⟨min a b, rfl, by omega⟩

theorem framePrefix_prefix (l m fr1 fr : List Nat) (h1 : framePrefix l = some fr1)
    (h : framePrefix (l ++ m) = some fr) : fr <+: l := by
  unfold framePrefix at h1 h
  cases hp : findSub startMarker l with
  | none => simp [hp] at h1
  | some p =>
    have hpb := findSub_bound _ _ _ hp
    simp only [startMarker, List.length_cons, List.length_nil] at hpb
    rw [hp] at h1
    rw [findSub_append _ _ m _ hp] at h
    simp only at h1 h
    cases hq1 : firstEnd (l.drop (p + 2)) with
    | none => simp [hq1] at h1
    | some q1 =>
      have hqb := firstEnd_bound _ _ hq1
      rw [List.length_drop] at hqb
      have hdrop : (l ++ m).drop (p + 2) = l.drop (p + 2) ++ m :=
        List.drop_append_of_le_length (by omega)
      obtain ⟨q, hq, hle⟩ := firstEnd_append_le _ m _ hq1
      rw [hdrop, hq] at h
      simp only [Option.some.injEq] at h
      rw [← h, List.take_append_of_le_length (by omega)]
      exact List.take_prefix _ _

theorem strstr_of_no_nul (mem n : List Nat) (h : ∀ b ∈ mem, b ≠ 0) :
    strstr mem n = findSub n mem := by
  unfold strstr
  rw [cstring_of_no_nul mem h]

theorem iteration_clean (s : RxState) (r : Read)
    (hnul : ∀ b ∈ s.total_data ++ r.data, b ≠ 0) (hr : r.ret = 0) (hd : r.data ≠ [])
    (hfit : s.total_len + r.data.length < MAX_DATA_SIZE)
    (hsf : s.start_found = (findSub startMarker s.total_data).isSome) :
    iteration s r =
      match framePrefix (s.total_data ++ r.data) with
      | some _ =>
        Iter.stop ⟨s.total_data ++ r.data, true, s.stdout ++ (s.total_data ++ r.data)⟩
          Stop.endMarker
      | none =>
        Iter.next ⟨s.total_data ++ r.data,
          (findSub startMarker (s.total_data ++ r.data)).isSome, s.stdout⟩ := by
  have hcap : ¬ MAX_DATA_SIZE ≤ s.total_len + r.data.length := by omega
  rw [iteration_eq, if_neg hd, if_neg hcap, strstr_of_no_nul _ _ hnul]
  unfold framePrefix
  cases hfs : findSub startMarker (s.total_data ++ r.data) with
  | none =>
    have hsf2 : s.start_found = false := by
      rw [hsf]
      cases hacc : findSub startMarker s.total_data with
      | none => rfl
      | some p =>
        rw [findSub_append _ _ r.data _ hacc] at hfs
        cases hfs
    simp [hsf2, checkRet, hr]
  | some p =>
    have hnul2 : ∀ b ∈ (s.total_data ++ r.data).drop (p + 2), b ≠ 0 :=
      fun b hb => hnul b (List.mem_of_mem_drop hb)
    simp only
    rw [strstr_of_no_nul _ _ hnul2, strstr_of_no_nul _ _ hnul2, ← firstEnd_isSome]
    cases hfe : firstEnd ((s.total_data ++ r.data).drop (p + 2)) with
    | none => simp [checkRet, hr]
    | some q => simp

theorem rxLoop_framed (reads : List Read) (s : RxState) (n : Nat) (fr : List Nat)
    (hnul : ∀ b ∈ s.total_data ++ received reads, b ≠ 0)
    (hret : ∀ r ∈ reads, r.ret = 0)
    (hfit : s.total_len + (received reads).length < MAX_DATA_SIZE)
    (hsf : s.start_found = (findSub startMarker s.total_data).isSome)
    (hnot : framePrefix s.total_data = none)
    (hfr : framePrefix (s.total_data ++ received reads) = some fr) :
    ∃ k s1, k < reads.length ∧
      rxLoop reads s n = RxOutcome.done s1 Stop.endMarker (n + k + 1) ∧
      s1.stdout = s.stdout ++ (s.total_data ++ received (reads.take (k + 1))) ∧
      fr <+: s.total_data ++ received (reads.take (k + 1)) ∧
      ∀ j ≤ k, framePrefix (s.total_data ++ received (reads.take j)) = none := by
  induction reads generalizing s n with
  | nil =>
    rw [received_nil, List.append_nil, hnot] at hfr
    cases hfr
  | cons r rest ih =>
    have hr : r.ret = 0 := hret r (List.mem_cons_self _ _)
    have hrest : ∀ x ∈ rest, x.ret = 0 := fun x hx => hret x (List.mem_cons_of_mem _ hx)
    rw [received_cons] at hnul hfit hfr
    by_cases hd : r.data = []
    · have hit : iteration s r = Iter.next s := by
        rw [iteration_eq, if_pos hd]
        simp [checkRet, hr]
      rw [hd, List.nil_append] at hnul hfit hfr
      obtain ⟨k, s1, hk, hloop, hout, hpre, hmin⟩ := ih s (n + 1) hnul hrest hfit hsf hnot hfr
      have htake : ∀ j, received ((r :: rest).take (j + 1)) = received (rest.take j) := by
        intro j
        rw [List.take_succ_cons, received_cons, hd, List.nil_append]
      refine ⟨k + 1, s1, by simp only [List.length_cons]; omega, ?_, ?_, ?_, ?_⟩
      · rw [rxLoop_cons, hit]
        simp only
        rw [hloop]
        have e : n + 1 + k + 1 = n + (k + 1) + 1 := by omega
        rw [e]
      · rw [htake]; exact hout
      · rw [htake]; exact hpre
      · intro j hj
        cases j with
        | zero => simpa [received_nil] using hnot
        | succ j => rw [htake]; exact hmin j (by omega)
    · have hnul1 : ∀ b ∈ s.total_data ++ r.data, b ≠ 0 := by
        intro b hb
        apply hnul
        rw [← List.append_assoc]
        exact List.mem_append_left _ hb
      have hfit1 : s.total_len + r.data.length < MAX_DATA_SIZE := by
        rw [List.length_append] at hfit
        omega
      have hit := iteration_clean s r hnul1 hr hd hfit1 hsf
      cases hfp : framePrefix (s.total_data ++ r.data) with
      | some fr1 =>
        rw [hfp] at hit
        simp only at hit
        have htake : received ((r :: rest).take (0 + 1)) = r.data := by
          simp [received]
        refine ⟨0, ⟨s.total_data ++ r.data, true, s.stdout ++ (s.total_data ++ r.data)⟩,
          by simp, ?_, ?_, ?_, ?_⟩
        · rw [rxLoop_cons, hit]
        · rw [htake]
        · rw [htake]
          rw [← List.append_assoc] at hfr
          exact framePrefix_prefix _ _ fr1 fr hfp hfr
        · intro j hj
          have : j = 0 := by omega
          subst this
          simpa [received_nil] using hnot
      | none =>
        rw [hfp] at hit
        simp only at hit
        have hnul2 : ∀ b ∈ (s.total_data ++ r.data) ++ received rest, b ≠ 0 := by
          rw [List.append_assoc]; exact hnul
        have hfit2 : (s.total_data ++ r.data).length + (received rest).length
            < MAX_DATA_SIZE := by
          simp only [RxState.total_len, List.length_append] at hfit ⊢
          omega
        have hfr2 : framePrefix ((s.total_data ++ r.data) ++ received rest) = some fr := by
          rw [List.append_assoc]; exact hfr
        obtain ⟨k, s1, hk, hloop, hout, hpre, hmin⟩ :=
          ih ⟨s.total_data ++ r.data, (findSub startMarker (s.total_data ++ r.data)).isSome,
            s.stdout⟩ (n + 1) hnul2 hrest hfit2 rfl hfp hfr2
        have htake : ∀ j, s.total_data ++ received ((r :: rest).take (j + 1)) =
            (s.total_data ++ r.data) ++ received (rest.take j) := by
          intro j
          rw [List.take_succ_cons, received_cons, List.append_assoc]
        refine ⟨k + 1, s1, by simp only [List.length_cons]; omega, ?_, ?_, ?_, ?_⟩
        · rw [rxLoop_cons, hit]
          simp only
          rw [hloop]
          have e : n + 1 + k + 1 = n + (k + 1) + 1 := by omega
          rw [e]
        · rw [htake]; exact hout
        · rw [htake]; exact hpre
        · intro j hj
          cases j with
          | zero => simpa [received_nil] using hnot
          | succ j => rw [htake]; exact hmin j (by omega)

/-- C3 (counterexample): the chunk `"@#AB#@ZZ"` is read successfully and stays
below the capacity, its frame is `"@#AB#@"`, but the run emits the whole chunk
`"@#AB#@ZZ"`; and for the chunk `"\0@#AB#@"`, which has a frame, the loop
detects no marker at all and is still running. -/
theorem main_emits_past_end_marker :
    (∀ r ∈ exTrailing, r.ret = 0) ∧ (received exTrailing).length < MAX_DATA_SIZE ∧
      framePrefix (received exTrailing) = some [64, 35, 65, 66, 35, 64] ∧
      (main (exEnv exTrailing)).output = some [64, 35, 65, 66, 35, 64, 90, 90] ∧
      (∀ r ∈ exNul, r.ret = 0) ∧ (received exNul).length < MAX_DATA_SIZE ∧
      (framePrefix (received exNul)).isSome = true ∧
      rxLoop exNul rxInit 0 = RxOutcome.running ⟨[0, 64, 35, 65, 66, 35, 64], false, []⟩ := by
  decide

/-- C3 (amended): in a run whose setup succeeded, whose reads all succeed,
carry no NUL byte and stay below the capacity in total, if the concatenation
of the chunks has a frame (a start marker followed, from two bytes past it on,
by an end marker), then the loop leaves on end-marker detection at the first
read `k + 1` after which the accumulated chunks have a frame, and the run emits
the chunks of the reads up to and including that one, whole: the output begins
with the frame and goes on to the end of that chunk. -/
theorem main_framed_output (env : Env) (fr : List Nat) (hs : setupOk env)
    (hret : ∀ r ∈ env.reads, r.ret = 0) (hnul : ∀ b ∈ received env.reads, b ≠ 0)
    (hcap : (received env.reads).length < MAX_DATA_SIZE)
    (hfr : framePrefix (received env.reads) = some fr) :
    ∃ k, k < env.reads.length ∧
      (∃ s, rxLoop env.reads rxInit 0 = RxOutcome.done s Stop.endMarker (k + 1)) ∧
      (main env).output = some (received (env.reads.take (k + 1))) ∧
      fr <+: received (env.reads.take (k + 1)) ∧
      ∀ j ≤ k, framePrefix (received (env.reads.take j)) = none := by
  obtain ⟨k, s1, hk, hloop, hout, hpre, hmin⟩ :=
    rxLoop_framed env.reads rxInit 0 fr (by simpa [rxInit] using hnul) hret
      (by simpa [rxInit, RxState.total_len] using hcap) rfl rfl
      (by simpa [rxInit] using hfr)
  rw [Nat.zero_add] at hloop
  have hout2 : s1.stdout = received (env.reads.take (k + 1)) := by
    rw [hout]; simp [rxInit]
  refine ⟨k, hk, ⟨s1, hloop⟩, ?_, by simpa [rxInit] using hpre, ?_⟩
  · rw [(main_of_done env hs s1 _ _ hloop).1, hout2]
  · intro j hj
    simpa [rxInit] using hmin j hj

/-- Witness for C3 (amended): the chunks `"XX"`, `"@#ABCD"`, `"EF#@"`, whose
frame is the whole concatenation. -/
theorem main_framed_output_witness :
    ∃ k, k < (exEnv exChunks).reads.length ∧
      (∃ s, rxLoop (exEnv exChunks).reads rxInit 0 = RxOutcome.done s Stop.endMarker (k + 1)) ∧
      (main (exEnv exChunks)).output = some (received ((exEnv exChunks).reads.take (k + 1))) ∧
      [88, 88, 64, 35, 65, 66, 67, 68, 69, 70, 35, 64]
        <+: received ((exEnv exChunks).reads.take (k + 1)) ∧
      ∀ j ≤ k, framePrefix (received ((exEnv exChunks).reads.take j)) = none :=
  main_framed_output (exEnv exChunks) [88, 88, 64, 35, 65, 66, 67, 68, 69, 70, 35, 64]
    (setupOk_exEnv exChunks) (by decide) (by decide) (by decide) (by decide)

/-! ## The region searched for the end marker -/

theorem findSub_sound (n l : List Nat) (i : Nat) (h : findSub n l = some i) :
    n <+: l.drop i := by
  induction l generalizing i with
  | nil =>
    cases n with
    | nil => simp
    | cons a t => simp [findSub] at h
  | cons b rest ih =>
    unfold findSub at h
    by_cases hp : n.isPrefixOf (b :: rest) = true
    · rw [if_pos hp] at h
      cases h
      exact List.isPrefixOf_iff_prefix.mp hp
    · rw [if_neg hp] at h
      cases hf : findSub n rest with
      | none => simp [hf] at h
      | some j =>
        simp only [hf, Option.map_some', Option.some.injEq] at h
        subst h
        exact ih j hf

theorem cstring_prefix (l : List Nat) : cstring l <+: l :=
  List.takeWhile_prefix _

theorem strstr_sound (mem n : List Nat) (i : Nat) (h : strstr mem n = some i) :
    n <+: mem.drop i := by
  have h1 := findSub_sound n _ i h
  have h2 := findSub_bound n _ i h
  obtain ⟨t, ht⟩ := cstring_prefix mem
  have h3 : mem.drop i = (cstring mem).drop i ++ t := by
    conv_lhs => rw [← ht]
    exact List.drop_append_of_le_length (by omega)
  rw [h3]
  exact h1.trans (List.prefix_append _ _)

theorem iteration_stop_endMarker (s s1 : RxState) (r : Read)
    (h : iteration s r = Iter.stop s1 Stop.endMarker) :
    ∃ p, strstr s1.total_data startMarker = some p ∧
      ((strstr (s1.total_data.drop (p + 2)) startMarker).isSome = true ∨
        (strstr (s1.total_data.drop (p + 2)) altEndMarker).isSome = true) := by
  rw [iteration_eq] at h
  split at h
  · obtain ⟨hw, -⟩ := checkRet_stop _ _ _ _ h
    cases hw
  · split at h
    · cases h
    · split at h
      · split at h
        · cases h
        · obtain ⟨hw, -⟩ := checkRet_stop _ _ _ _ h
          cases hw
      · rename_i p hp
        split at h
        · rename_i hend
          cases h
          exact ⟨p, hp, by simpa using hend⟩
        · obtain ⟨hw, -⟩ := checkRet_stop _ _ _ _ h
          cases hw

/-- C11 (counterexample): on the chunk `"@#@#"` the start marker is at offset 0,
the search resumes at offset 2, an end marker `"@#"` begins exactly at offset 2
and none begins after it, and the loop leaves with an end marker found. -/
theorem rxLoop_matches_at_resume_offset :
    rxLoop exResume rxInit 0 =
      RxOutcome.done ⟨[64, 35, 64, 35], true, [64, 35, 64, 35]⟩ Stop.endMarker 1 ∧
    strstr [64, 35, 64, 35] startMarker = some 0 ∧
    startMarker <+: List.drop (0 + 2) [64, 35, 64, 35] ∧
    ∀ q, 0 + 2 < q → ¬ startMarker <+: List.drop q [64, 35, 64, 35] ∧
      ¬ altEndMarker <+: List.drop q [64, 35, 64, 35] := by
  refine ⟨by decide, by decide, by decide, ?_⟩
  intro q hq
  have hlen : (List.drop q [64, 35, 64, 35]).length < 2 := by
    rw [List.length_drop]
    simp only [List.length_cons, List.length_nil]
    omega
  constructor
  · intro hc
    have := hc.length_le
    simp only [startMarker, List.length_cons, List.length_nil] at this
    omega
  · intro hc
    have := hc.length_le
    simp only [altEndMarker, List.length_cons, List.length_nil] at this
    omega

/-- C11 (amended): whenever the loop leaves with an end marker found, the start
marker is recorded at some offset `p` of the accumulator and an end marker,
`"@#"` or `"#@"`, begins at an offset `q` with `p + 2 ≤ q`; so an occurrence
that begins before the resume offset `p + 2` is never the one matched, and
such occurrences alone never end the loop. -/
theorem rxLoop_end_marker_offset (reads : List Read) (s : RxState) (k : Nat)
    (h : rxLoop reads rxInit 0 = RxOutcome.done s Stop.endMarker k) :
    ∃ p q, strstr s.total_data startMarker = some p ∧ p + 2 ≤ q ∧
      (startMarker <+: s.total_data.drop q ∨ altEndMarker <+: s.total_data.drop q) := by
  obtain ⟨pre, r, post, sm, -, -, -, hit⟩ := rxLoop_done_split _ _ _ _ _ _ h
  obtain ⟨p, hp, hend⟩ := iteration_stop_endMarker sm s r hit
  rcases hend with he | he
  · obtain ⟨j, hj⟩ := Option.isSome_iff_exists.mp he
    refine ⟨p, p + 2 + j, hp, by omega, Or.inl ?_⟩
    have := strstr_sound _ _ _ hj
    rwa [List.drop_drop] at this
  · obtain ⟨j, hj⟩ := Option.isSome_iff_exists.mp he
    refine ⟨p, p + 2 + j, hp, by omega, Or.inr ?_⟩
    have := strstr_sound _ _ _ hj
    rwa [List.drop_drop] at this

/-- Witness for C11 (amended): the chunks `"XX"`, `"@#ABCD"`, `"EF#@"`. -/
theorem rxLoop_end_marker_offset_witness :
    ∃ p q, strstr [88, 88, 64, 35, 65, 66, 67, 68, 69, 70, 35, 64] startMarker = some p ∧
      p + 2 ≤ q ∧
      (startMarker <+: List.drop q [88, 88, 64, 35, 65, 66, 67, 68, 69, 70, 35, 64] ∨
        altEndMarker <+: List.drop q [88, 88, 64, 35, 65, 66, 67, 68, 69, 70, 35, 64]) :=
  rxLoop_end_marker_offset exChunks
    ⟨[88, 88, 64, 35, 65, 66, 67, 68, 69, 70, 35, 64], true,
      [88, 88, 64, 35, 65, 66, 67, 68, 69, 70, 35, 64]⟩ 3 (by decide)

/-! ## Exit status -/

/-- C12 (counterexample): a run that finds no device, a run whose interface
claim fails and a run whose `libusb_init` fails all end with the same exit
status 1. -/
theorem main_failure_statuses_coincide :
    (main exNoDevice).status = some 1 ∧ (main exClaimFail).status = some 1 ∧
      (main exInitFail).status = some 1 ∧
      (main exNoDevice).status = (main exClaimFail).status ∧
      (main exClaimFail).status = (main exInitFail).status := by
  decide

/-- C12 (amended): a run that gets through the setup and whose receive loop
ends returns 0; a failed `libusb_init`, a failed resolver ("no device found")
and a failed interface claim each return the one non-zero status 1. -/
theorem main_exit_status :
    (∀ (env : Env) (s : RxState) (why : Stop) (n : Nat), setupOk env →
      rxLoop env.reads rxInit 0 = RxOutcome.done s why n → (main env).status = some 0) ∧
    (∀ env : Env, env.initRet ≠ 0 → (main env).status = some 1) ∧
    (∀ env : Env, (find_device_and_endpoints env.cnt env.devs none ⟨0, 0, 0, 0⟩).ret ≠ 0 →
      (main env).status = some 1) ∧
    (∀ env : Env, env.claimRet ≠ 0 → (main env).status = some 1) :=
  ⟨fun env s why n hs h => (main_of_done env hs s why n h).2,
    fun env h => (main_setup_failure env (Or.inl h)).2,
    fun env h => (main_setup_failure env (Or.inr (Or.inl h))).2,
    fun env h => (main_setup_failure env (Or.inr (Or.inr h))).2⟩

/-- Witness for C12 (amended): a complete run on the chunks `"XX"`, `"@#ABCD"`,
`"EF#@"`, a run without a Samsung device, and a run whose claim fails. -/
theorem main_exit_status_witness :
    (main (exEnv exChunks)).status = some 0 ∧ (main exNoDevice).status = some 1 ∧
      (main exClaimFail).status = some 1 :=
  ⟨main_exit_status.1 (exEnv exChunks)
      ⟨[88, 88, 64, 35, 65, 66, 67, 68, 69, 70, 35, 64], true,
        [88, 88, 64, 35, 65, 66, 67, 68, 69, 70, 35, 64]⟩ Stop.endMarker 3
      (setupOk_exEnv exChunks) (by decide),
    main_exit_status.2.2.1 exNoDevice (by decide),
    main_exit_status.2.2.2 exClaimFail (by decide)⟩

/-! ## The start marker -/

theorem iteration_next_start_found (s s1 : RxState) (r : Read)
    (h : iteration s r = Iter.next s1)
    (hinv : s.start_found = (strstr s.total_data startMarker).isSome) :
    s1.start_found = (strstr s1.total_data startMarker).isSome := by
  rw [iteration_eq] at h
  split at h
  · obtain ⟨rfl, -⟩ := checkRet_next _ _ _ h
    exact hinv
  · split at h
    · cases h
    · split at h
      · rename_i hnone
        split at h
        · cases h
        · obtain ⟨rfl, -⟩ := checkRet_next _ _ _ h
          simp [hnone]
      · rename_i p hp
        split at h
        · cases h
        · obtain ⟨rfl, -⟩ := checkRet_next _ _ _ h
          simp [hp]

theorem rxLoop_running_start_found (reads : List Read) (s s1 : RxState) (n : Nat)
    (h : rxLoop reads s n = RxOutcome.running s1)
    (hinv : s.start_found = (strstr s.total_data startMarker).isSome) :
    s1.start_found = (strstr s1.total_data startMarker).isSome := by
  induction reads generalizing s n with
  | nil =>
    simp only [rxLoop, RxOutcome.running.injEq] at h
    subst h
    exact hinv
  | cons r rest ih =>
    rw [rxLoop_cons] at h
    cases hit : iteration s r with
    | next s2 =>
      rw [hit] at h
      exact ih s2 (n + 1) h (iteration_next_start_found s s2 r hit hinv)
    | stop s2 why => rw [hit] at h; cases h
    | fault => rw [hit] at h; cases h

theorem rxInit_start_found :
    rxInit.start_found = (strstr rxInit.total_data startMarker).isSome := by
  decide

/-- C13: once the loop, still running, has an accumulator whose first `"@#"`
is at offset `p`, the start marker is recorded, and whatever bytes are appended
later the first `"@#"` recomputed over the grown accumulator is again at `p`:
in every later state of the loop, running or stopped, the start position is `p`
and the end-marker search starts at `p + 2`. -/
theorem start_marker_position_fixed (pre more : List Read) (s : RxState) (p : Nat)
    (hpre : rxLoop pre rxInit 0 = RxOutcome.running s)
    (hp : strstr s.total_data startMarker = some p) :
    s.start_found = true ∧
    (∀ data, strstr (s.total_data ++ data) startMarker = some p) ∧
    (∀ s2, rxLoop (pre ++ more) rxInit 0 = RxOutcome.running s2 →
      s2.start_found = true ∧ strstr s2.total_data startMarker = some p) ∧
    (∀ s2 why k, rxLoop (pre ++ more) rxInit 0 = RxOutcome.done s2 why k →
      strstr s2.total_data startMarker = some p) := by
  have hsf : s.start_found = true := by
    rw [rxLoop_running_start_found pre rxInit s 0 hpre rxInit_start_found, hp]
    rfl
  have happ : ∀ data, strstr (s.total_data ++ data) startMarker = some p :=
    fun data => strstr_append _ data _ p hp
  have hsplit := rxLoop_append pre more rxInit s 0 hpre
  refine ⟨hsf, happ, ?_, ?_⟩
  · intro s2 h2
    rw [hsplit] at h2
    have htd := (rxLoop_running more s s2 _ h2).1
    have hinv := rxLoop_running_start_found more s s2 _ h2 (by rw [hsf, hp]; rfl)
    have hp2 : strstr s2.total_data startMarker = some p := by rw [htd]; exact happ _
    exact ⟨by rw [hinv, hp2]; rfl, hp2⟩
  · intro s2 why k h2
    rw [hsplit] at h2
    obtain ⟨a, r, b, sm, -, -, hrun, hit⟩ := rxLoop_done_split _ _ _ _ _ _ h2
    have htd := (rxLoop_running a s sm _ hrun).1
    rcases iteration_stop sm s2 r why hit with ⟨-, rfl, -, -⟩ | ⟨-, h1, -, -, -⟩
    · rw [htd]; exact happ _
    · rw [h1, htd, List.append_assoc]; exact happ _

/-- Witness for C13: after `"XX"` and `"@#ABCD"` the start marker is at offset
2; the chunk `"@#EF"`, which reproduces the start marker, is appended and ends
the loop, and the start position is still 2. -/
theorem start_marker_position_fixed_witness :
    strstr [88, 88, 64, 35, 65, 66, 67, 68, 64, 35, 69, 70] startMarker = some 2 :=
  (start_marker_position_fixed [⟨0, [88, 88]⟩, ⟨0, [64, 35, 65, 66, 67, 68]⟩]
    [⟨0, [64, 35, 69, 70]⟩] ⟨[88, 88, 64, 35, 65, 66, 67, 68], true, []⟩ 2
    (by decide) (by decide)).2.2.2
    ⟨[88, 88, 64, 35, 65, 66, 67, 68, 64, 35, 69, 70], true,
      [88, 88, 64, 35, 65, 66, 67, 68, 64, 35, 69, 70]⟩ Stop.endMarker 3 (by decide)

/-- C14 (the code at the failing input): after the successful append of the
chunk `"\0@#AB#@"` the accumulated bytes contain `"@#"` at offset 1, but the
search on the C string stops at the NUL byte: `start_found` stays 0 and the
loop goes on waiting for a start marker. -/
theorem rxLoop_nul_hides_start :
    rxLoop exNul rxInit 0 = RxOutcome.running ⟨[0, 64, 35, 65, 66, 35, 64], false, []⟩ ∧
      findSub startMarker [0, 64, 35, 65, 66, 35, 64] = some 1 ∧
      startMarker <+: List.drop 1 [0, 64, 35, 65, 66, 35, 64] ∧
      strstr [0, 64, 35, 65, 66, 35, 64] startMarker = none := by
  decide

/-- On data without a NUL byte the start marker is recorded as soon as the
accumulated bytes contain `"@#"`: in every running state `start_found` tells
whether `"@#"` occurs in the accumulator. -/
theorem start_found_of_no_nul (reads : List Read) (s : RxState)
    (h : rxLoop reads rxInit 0 = RxOutcome.running s)
    (hnul : ∀ b ∈ received reads, b ≠ 0) :
    s.start_found = (findSub startMarker s.total_data).isSome := by
  have htd : s.total_data = received reads := by
    rw [(rxLoop_running _ _ _ _ h).1]; rfl
  rw [rxLoop_running_start_found reads rxInit s 0 h rxInit_start_found,
    strstr_of_no_nul _ _ (by rw [htd]; exact hnul)]

/-! ## The capacity check -/

theorem rxLoop_no_start_init (pre : List Read) (hno : 64 ∉ received pre)
    (hret : ∀ x ∈ pre, x.ret = 0) (hfit : (received pre).length < MAX_DATA_SIZE) :
    rxLoop pre rxInit 0 = RxOutcome.running ⟨received pre, false, []⟩ := by
  have hpre := rxLoop_no_start pre rxInit 0 rfl (by simpa [rxInit] using hno) hret
    (by simpa [rxInit, RxState.total_len] using hfit)
  simpa [rxInit] using hpre

theorem rxLoop_exChunks3 :
    rxLoop [exChunk, exChunk, exChunk] rxInit 0 =
      RxOutcome.running ⟨received [exChunk, exChunk, exChunk], false, []⟩ :=
  rxLoop_no_start_init [exChunk, exChunk, exChunk]
    (by
      rw [received_exChunks3]
      simp only [List.append_nil, List.mem_append, not_or]
      exact ⟨exChunk_no_start, exChunk_no_start, exChunk_no_start⟩)
    (by
      intro r hr
      simp only [List.mem_cons, List.mem_singleton, List.not_mem_nil, or_false, or_self] at hr
      rw [hr]; rfl)
    (by rw [received_exChunks3_length]; decide)

/-- C15: for a chunk of `n > 0` bytes read in a running state of the loop, the
chunk is appended to the accumulator exactly when `total_len + n` is below
`MAX_DATA_SIZE`; otherwise the iteration is the capacity `break` with all loop
variables unchanged, whatever the bytes of the chunk, so the loop over these
reads ends by the capacity stop and not by an end marker. -/
theorem chunk_appended_iff (pre rest : List Read) (s : RxState) (r : Read)
    (hpre : rxLoop pre rxInit 0 = RxOutcome.running s) (hn : 0 < r.data.length) :
    ((match iteration s r with
      | Iter.next s1 => s1.total_data = s.total_data ++ r.data
      | Iter.stop s1 _ => s1.total_data = s.total_data ++ r.data
      | Iter.fault => False) ↔ s.total_len + r.data.length < MAX_DATA_SIZE) ∧
    (MAX_DATA_SIZE ≤ s.total_len + r.data.length →
      iteration s r = Iter.stop s Stop.capacity ∧
      rxLoop (pre ++ r :: rest) rxInit 0 = RxOutcome.done s Stop.capacity (pre.length + 1)) := by
  have hd : r.data ≠ [] := List.ne_nil_of_length_pos hn
  have hinv := (rxLoop_running _ _ _ _ hpre).2.2.2.2 rxInit_inv
  have hcapstop : MAX_DATA_SIZE ≤ s.total_len + r.data.length →
      iteration s r = Iter.stop s Stop.capacity := by
    intro hcap
    rw [iteration_eq, if_neg hd, if_pos hcap]
  refine ⟨⟨?_, ?_⟩, fun hcap => ⟨hcapstop hcap, ?_⟩⟩
  · intro happ
    by_contra hlt
    rw [hcapstop (by omega)] at happ
    simp only at happ
    have := congrArg List.length happ
    rw [List.length_append] at this
    omega
  · intro hfit
    cases hit : iteration s r with
    | next s1 => exact (iteration_next s s1 r hit).1
    | fault => exact absurd hit (iteration_ne_fault s r hinv)
    | stop s1 why =>
      rcases iteration_stop s s1 r why hit with ⟨-, -, -, hcap⟩ | ⟨-, h1, -, -, -⟩
      · omega
      · exact h1
  · rw [rxLoop_append pre (r :: rest) rxInit s 0 hpre, rxLoop_cons, hcapstop hcap, Nat.zero_add]

/-- Witness for C15: the fourth of four full chunks of 16384 bytes is rejected
with 49152 bytes accumulated. -/
theorem chunk_appended_iff_witness :
    iteration ⟨received [exChunk, exChunk, exChunk], false, []⟩ exChunk =
        Iter.stop ⟨received [exChunk, exChunk, exChunk], false, []⟩ Stop.capacity ∧
      rxLoop ([exChunk, exChunk, exChunk] ++ [exChunk]) rxInit 0 =
        RxOutcome.done ⟨received [exChunk, exChunk, exChunk], false, []⟩ Stop.capacity
          ([exChunk, exChunk, exChunk].length + 1) ∧
      (received [exChunk, exChunk, exChunk]).length = 49152 :=
  have h := (chunk_appended_iff [exChunk, exChunk, exChunk] []
    ⟨received [exChunk, exChunk, exChunk], false, []⟩ exChunk rxLoop_exChunks3
    (by rw [exChunk_length]; decide)).2
    (by
      have e : (⟨received [exChunk, exChunk, exChunk], false, []⟩ : RxState).total_len =
          (received [exChunk, exChunk, exChunk]).length := rfl
      rw [e, received_exChunks3_length, exChunk_length]
      decide)
  ⟨h.1, h.2, received_exChunks3_length⟩

/-! ## Termination of the receive loop -/

theorem firstReads_length (reads : Nat → Read) (n : Nat) :
    (firstReads reads n).length = n := by
  simp [firstReads]

theorem firstReads_take (reads : Nat → Read) (k n : Nat) (h : k ≤ n) :
    (firstReads reads n).take k = firstReads reads k := by
  unfold firstReads
  rw [← List.map_take, List.take_range, Nat.min_eq_left h]

theorem firstReads_getElem? (reads : Nat → Read) (i n : Nat) (h : i < n) :
    (firstReads reads n)[i]? = some (reads i) := by
  unfold firstReads
  rw [List.getElem?_map, List.getElem?_range h]
  rfl

theorem mem_firstReads (reads : Nat → Read) (n : Nat) (r : Read)
    (h : r ∈ firstReads reads n) : ∃ i, r = reads i := by
  unfold firstReads at h
  obtain ⟨i, -, hi⟩ := List.mem_map.mp h
  exact ⟨i, hi.symm⟩

theorem rxLoop_done_append (pre more : List Read) (s s1 : RxState) (why : Stop) (n k : Nat)
    (h : rxLoop pre s n = RxOutcome.done s1 why k) :
    rxLoop (pre ++ more) s n = RxOutcome.done s1 why k := by
  induction pre generalizing s n with
  | nil => simp [rxLoop] at h
  | cons r pre ih =>
    rw [rxLoop_cons] at h
    rw [List.cons_append, rxLoop_cons]
    cases hit : iteration s r with
    | next s2 =>
      rw [hit] at h
      exact ih s2 (n + 1) h
    | stop s2 why2 => rw [hit] at h; exact h
    | fault => rw [hit] at h; cases h

theorem rxLoop_running_prefix (a b : List Read) (s s1 : RxState) (n : Nat)
    (h : rxLoop (a ++ b) s n = RxOutcome.running s1) :
    ∃ s2, rxLoop a s n = RxOutcome.running s2 := by
  induction a generalizing s n with
  | nil => exact ⟨s, rfl⟩
  | cons r a ih =>
    rw [List.cons_append, rxLoop_cons] at h
    rw [rxLoop_cons]
    cases hit : iteration s r with
    | next s2 =>
      rw [hit] at h
      exact ih s2 (n + 1) h
    | stop s2 why => rw [hit] at h; cases h
    | fault => rw [hit] at h; cases h

theorem length_le_received (reads : List Read) (h : ∀ r ∈ reads, 0 < r.data.length) :
    reads.length ≤ (received reads).length := by
  induction reads with
  | nil => simp [received_nil]
  | cons r rest ih =>
    rw [received_cons, List.length_append, List.length_cons]
    have h1 := h r (List.mem_cons_self _ _)
    have h2 := ih (fun x hx => h x (List.mem_cons_of_mem _ hx))
    omega

theorem rxLoop_stops_within (reads : Nat → Read) (N : Nat) (hN : MAX_DATA_SIZE ≤ N)
    (hprog : ∀ i, (0 < (reads i).data.length ∧ (reads i).data.length ≤ CHUNK_SIZE) ∨
      (reads i).ret ≠ 0) :
    ∃ k s why, 0 < k ∧ k ≤ N ∧
      rxLoop (firstReads reads k) rxInit 0 = RxOutcome.done s why k ∧
      (∀ j, j < k → ∃ s1, rxLoop (firstReads reads j) rxInit 0 = RxOutcome.running s1) ∧
      (∀ n, k ≤ n → rxLoop (firstReads reads n) rxInit 0 = RxOutcome.done s why k) ∧
      (why = Stop.capacity ∨ why = Stop.endMarker ∨ why = Stop.readStatus) ∧
      (why = Stop.readStatus → (reads (k - 1)).ret ≠ 0) := by
  cases hrun : rxLoop (firstReads reads N) rxInit 0 with
  | fault => exact absurd hrun (rxLoop_ne_fault _ _ _ rxInit_inv)
  | running s =>
    exfalso
    obtain ⟨htd, -, hret, hlt, -⟩ := rxLoop_running _ _ _ _ hrun
    have hpos : ∀ r ∈ firstReads reads N, 0 < r.data.length := by
      intro r hr
      obtain ⟨i, rfl⟩ := mem_firstReads reads _ r hr
      rcases hprog i with h1 | h1
      · exact h1.1
      · exact absurd (hret _ hr) h1
    have h1 := length_le_received _ hpos
    rw [firstReads_length] at h1
    have h2 : s.total_len < MAX_DATA_SIZE := hlt (by decide)
    have h0 : rxInit.total_data = [] := rfl
    have h3 : s.total_len = (received (firstReads reads N)).length := by
      unfold RxState.total_len
      rw [htd, h0, List.nil_append]
    rw [h3] at h2
    omega
  | done s why k =>
    obtain ⟨pre, r, post, sm, hsplit, hk, hpre, hit⟩ := rxLoop_done_split _ _ _ _ _ _ hrun
    rw [Nat.zero_add] at hk
    have hlen : pre.length + 1 + post.length = N := by
      have := congrArg List.length hsplit
      rw [firstReads_length, List.length_append, List.length_cons] at this
      omega
    have hk2 : k ≤ N := by omega
    have htakek : firstReads reads k = pre ++ [r] := by
      rw [← firstReads_take reads k N hk2, hsplit, hk]
      have e : pre ++ r :: post = (pre ++ [r]) ++ post := by simp
      rw [e]
      exact List.take_left' (by simp)
    have hdone : rxLoop (firstReads reads k) rxInit 0 = RxOutcome.done s why k := by
      rw [htakek, rxLoop_append pre [r] rxInit sm 0 hpre, rxLoop_cons, hit, Nat.zero_add, hk]
    have hr : r = reads (k - 1) := by
      have h1 := firstReads_getElem? reads pre.length N (by omega)
      rw [hsplit, List.getElem?_append_right (Nat.le_refl _)] at h1
      simp only [Nat.sub_self, List.getElem?_cons_zero, Option.some.injEq] at h1
      rw [h1, hk]
      rfl
    refine ⟨k, s, why, by omega, hk2, hdone, ?_, ?_, ?_, ?_⟩
    · intro j hj
      have hj2 : j ≤ pre.length := by omega
      have e : pre = firstReads reads j ++ pre.drop j := by
        have h1 : firstReads reads j = pre.take j := by
          rw [← firstReads_take reads j N (by omega), hsplit,
            List.take_append_of_le_length hj2]
        rw [h1, List.take_append_drop]
      rw [e] at hpre
      exact rxLoop_running_prefix _ _ _ _ _ hpre
    · intro n hn
      have e : firstReads reads n = firstReads reads k ++ (firstReads reads n).drop k := by
        rw [← firstReads_take reads k n hn, List.take_append_drop]
      rw [e]
      exact rxLoop_done_append _ _ _ _ _ _ _ hdone
    · cases why
      · exact Or.inl rfl
      · exact Or.inr (Or.inl rfl)
      · exact Or.inr (Or.inr rfl)
    · intro hw
      subst hw
      rcases iteration_stop sm s r _ hit with ⟨hc, -⟩ | ⟨-, -, -, -, h5⟩
      · cases hc
      · rw [← hr]
        exact h5 rfl


/-- C16: when every read of an unending sequence either transfers between 1
and 16384 bytes or reports a non-success status, the loop leaves by a `break`
at some read `k` with `1 ≤ k ≤ 65536`: it is still running after each smaller
number of reads, further reads change nothing, and the `break` taken is one of
the three, the capacity check, the end-marker check or the check of the read
status (then the last read had a non-success status). -/
theorem rxLoop_terminates (reads : Nat → Read)
    (hprog : ∀ i, (0 < (reads i).data.length ∧ (reads i).data.length ≤ CHUNK_SIZE) ∨
      (reads i).ret ≠ 0) :
    ∃ k s why, 0 < k ∧ k ≤ 65536 ∧
      rxLoop (firstReads reads k) rxInit 0 = RxOutcome.done s why k ∧
      (∀ j, j < k → ∃ s1, rxLoop (firstReads reads j) rxInit 0 = RxOutcome.running s1) ∧
      (∀ n, k ≤ n → rxLoop (firstReads reads n) rxInit 0 = RxOutcome.done s why k) ∧
      (why = Stop.capacity ∨ why = Stop.endMarker ∨ why = Stop.readStatus) ∧
      (why = Stop.readStatus → (reads (k - 1)).ret ≠ 0) :=
  rxLoop_stops_within reads 65536 (Nat.le_refl _) hprog

/-- Witness for C16: reads that always time out with nothing transferred. -/
theorem rxLoop_terminates_witness :
    ∃ k s why, 0 < k ∧ k ≤ 65536 ∧
      rxLoop (firstReads exSilent k) rxInit 0 = RxOutcome.done s why k ∧
      (∀ j, j < k → ∃ s1, rxLoop (firstReads exSilent j) rxInit 0 = RxOutcome.running s1) ∧
      (∀ n, k ≤ n → rxLoop (firstReads exSilent n) rxInit 0 = RxOutcome.done s why k) ∧
      (why = Stop.capacity ∨ why = Stop.endMarker ∨ why = Stop.readStatus) ∧
      (why = Stop.readStatus → (exSilent (k - 1)).ret ≠ 0) :=
  rxLoop_terminates exSilent
    (fun i => Or.inr (show (exSilent i).ret ≠ 0 from (by decide : (-7 : Int) ≠ 0)))

/-! ## The extent of the resolver's search -/

theorem scanInterfaces_append_stop (ipre ipost : List InterfaceDescriptor)
    (inter : InterfaceDescriptor) (hp : hasBulkPair inter = true) :
    scanInterfaces (ipre ++ inter :: ipost) = scanInterfaces (ipre ++ [inter]) := by
  simp [scanInterfaces_eq, List.find?_append, List.find?_cons, hp]

theorem scanDevices_first (h : Option Nat) (c : DeviceConfig) (dev : Device)
    (rest : List Device) (i : Nat) (hq : qualifies dev = true) :
    scanDevices h c i (dev :: rest) = scanDevices h c i [dev] := by
  obtain ⟨inter, -, hsel⟩ := selected_cons_of_qualifies dev rest hq
  obtain ⟨inter2, -, hsel2⟩ := selected_cons_of_qualifies dev [] hq
  have e : inter2 = inter := by
    have h1 := (selected_eq_some_iff _ _ _).mp hsel
    have h2 := (selected_eq_some_iff _ _ _).mp hsel2
    rw [h1.2] at h2
    exact (Option.some.inj h2.2).symm
  subst e
  rw [scanDevices_eq, scanDevices_eq, hsel, hsel2]
  simp [List.findIdx_cons, hq]

theorem scanDevices_later_devices (h : Option Nat) (c : DeviceConfig) (pre post : List Device)
    (dev : Device) (i : Nat) (hq : qualifies dev = true) :
    scanDevices h c i (pre ++ dev :: post) = scanDevices h c i (pre ++ [dev]) := by
  induction pre generalizing i with
  | nil => exact scanDevices_first h c dev post i hq
  | cons d pre ih =>
    cases hd : qualifies d with
    | true =>
      rw [List.cons_append, List.cons_append, scanDevices_first h c d _ i hd,
        scanDevices_first h c d (pre ++ [dev]) i hd]
    | false =>
      rw [List.cons_append, List.cons_append, scanDevices_skip h c d _ i hd,
        scanDevices_skip h c d _ i hd, ih]

theorem scanDevices_later_interfaces (h : Option Nat) (c : DeviceConfig)
    (pre post : List Device) (dev : Device) (ipre ipost : List InterfaceDescriptor)
    (inter : InterfaceDescriptor) (i : Nat) (hint : dev.interface = ipre ++ inter :: ipost)
    (hp : hasBulkPair inter = true) :
    scanDevices h c i (pre ++ dev :: post) =
      scanDevices h c i (pre ++ { dev with interface := ipre ++ [inter] } :: post) := by
  induction pre generalizing i with
  | nil =>
    simp only [List.nil_append, scanDevices, hint, scanInterfaces_append_stop ipre ipost inter hp]
  | cons d pre ih =>
    cases hd : qualifies d with
    | true =>
      rw [List.cons_append, List.cons_append, scanDevices_first h c d _ i hd,
        scanDevices_first h c d (pre ++ _ :: post) i hd]
    | false =>
      rw [List.cons_append, List.cons_append, scanDevices_skip h c d _ i hd,
        scanDevices_skip h c d _ i hd, ih]

/-- C17: the resolver calls `libusb_open` at most once, and exactly once when
it succeeds; the devices after a qualifying device and the interfaces after an
interface with a bulk pair do not enter the result; and when the open of the
device that owns the first qualifying interface fails, the resolver returns
`-1` after that single open, whatever devices follow in the list. -/
theorem find_device_and_endpoints_stops (cnt : Int) (devs : List Device) (h : Option Nat)
    (c : DeviceConfig) :
    (find_device_and_endpoints cnt devs h c).opens.length ≤ 1 ∧
    ((find_device_and_endpoints cnt devs h c).ret = 0 →
      (find_device_and_endpoints cnt devs h c).opens.length = 1) ∧
    (∀ pre dev post, devs = pre ++ dev :: post → qualifies dev = true →
      find_device_and_endpoints cnt devs h c =
        find_device_and_endpoints cnt (pre ++ [dev]) h c) ∧
    (∀ pre dev post ipre inter ipost, devs = pre ++ dev :: post →
      dev.interface = ipre ++ inter :: ipost → hasBulkPair inter = true →
      find_device_and_endpoints cnt devs h c =
        find_device_and_endpoints cnt
          (pre ++ { dev with interface := ipre ++ [inter] } :: post) h c) ∧
    (∀ dev inter, 0 ≤ cnt → selected devs = some (dev, inter) → dev.openRet ≠ 0 →
      (find_device_and_endpoints cnt devs h c).ret = -1 ∧
      (find_device_and_endpoints cnt devs h c).opens = [devs.findIdx qualifies]) := by
  refine ⟨?_, ?_, ?_, ?_, ?_⟩
  · by_cases hcnt : cnt < 0
    · simp [find_device_and_endpoints, hcnt]
    · rw [find_device_and_endpoints_eq cnt devs h c (by omega)]
      cases hsel : selected devs with
      | none => simp
      | some p =>
        obtain ⟨dev, inter⟩ := p
        dsimp only
        split <;> simp
  · intro hret
    obtain ⟨-, dev, inter, -, -, heq⟩ := find_device_and_endpoints_ret_zero cnt devs h c hret
    rw [heq]
    rfl
  · intro pre dev post hdevs hq
    unfold find_device_and_endpoints
    split
    · rfl
    · rw [hdevs]
      exact scanDevices_later_devices h c pre post dev 0 hq
  · intro pre dev post ipre inter ipost hdevs hint hp
    unfold find_device_and_endpoints
    split
    · rfl
    · rw [hdevs]
      exact scanDevices_later_interfaces h c pre post dev ipre ipost inter 0 hint hp
  · intro dev inter hcnt hsel ho
    rw [find_device_and_endpoints_eq cnt devs h c hcnt, hsel]
    dsimp only
    rw [if_neg ho]
    exact ⟨rfl, rfl⟩

/-- Witness for C17: the open of the first Samsung device fails; the second
Samsung device of the list, which would open, is not tried. -/
theorem find_device_and_endpoints_stops_witness :
    (find_device_and_endpoints 2 [exOpenFail (-3), exSamsung] none ⟨0, 0, 0, 0⟩).ret = -1 ∧
      (find_device_and_endpoints 2 [exOpenFail (-3), exSamsung] none ⟨0, 0, 0, 0⟩).opens
        = [List.findIdx qualifies [exOpenFail (-3), exSamsung]] ∧
      exSamsung.openRet = 0 ∧ qualifies exSamsung = true :=
  have h := (find_device_and_endpoints_stops 2 [exOpenFail (-3), exSamsung] none
    ⟨0, 0, 0, 0⟩).2.2.2.2 (exOpenFail (-3)) ⟨0, [⟨0x81, 2⟩, ⟨0x01, 2⟩]⟩ (by decide)
    (by decide) (by decide)
  ⟨h.1, h.2, by decide, by decide⟩

/-! ## Devices with an unreadable descriptor -/

theorem find?_qualifies_readable (devs : List Device) :
    (readable devs).find? qualifies = devs.find? qualifies := by
  induction devs with
  | nil => rfl
  | cons d rest ih =>
    unfold readable at ih ⊢
    by_cases hd : 0 ≤ d.descRet
    · simp only [List.filter_cons, hd, decide_True, if_true, List.find?_cons, ih]
    · have hq : qualifies d = false := by simp [qualifies, hd]
      simp only [List.filter_cons, hd, decide_False, Bool.false_eq_true, if_false,
        List.find?_cons, hq, ih]

theorem selected_readable (devs : List Device) : selected (readable devs) = selected devs := by
  unfold selected
  rw [find?_qualifies_readable]

theorem getElem?_findIdx (p : Device → Bool) (l : List Device) :
    l[l.findIdx p]? = l.find? p := by
  induction l with
  | nil => rfl
  | cons a rest ih =>
    cases ha : p a with
    | true => simp [List.findIdx_cons, List.find?_cons, ha]
    | false => simp [List.findIdx_cons, List.find?_cons, ha, ih]

/-- C18: removing the devices whose descriptor cannot be read from the list
does not change the resolver's result: the return value and `*config` are the
same, `libusb_open` is called on the same device, and `*h` is either left as it
was in both runs or is the handle of the same device in both. -/
theorem find_device_and_endpoints_skips_unreadable (cnt : Int) (devs : List Device)
    (h : Option Nat) (c : DeviceConfig) :
    (find_device_and_endpoints cnt (readable devs) h c).ret =
      (find_device_and_endpoints cnt devs h c).ret ∧
    (find_device_and_endpoints cnt (readable devs) h c).config =
      (find_device_and_endpoints cnt devs h c).config ∧
    (find_device_and_endpoints cnt (readable devs) h c).opens.map
        (fun i => (readable devs)[i]?) =
      (find_device_and_endpoints cnt devs h c).opens.map (fun i => devs[i]?) ∧
    (((find_device_and_endpoints cnt (readable devs) h c).h = h ∧
        (find_device_and_endpoints cnt devs h c).h = h) ∨
      ∃ i j, (find_device_and_endpoints cnt (readable devs) h c).h = some i ∧
        (find_device_and_endpoints cnt devs h c).h = some j ∧
        (readable devs)[i]? = devs[j]?) := by
  by_cases hcnt : cnt < 0
  · simp [find_device_and_endpoints, hcnt]
  · have hc : 0 ≤ cnt := by omega
    have hidx : (readable devs)[(readable devs).findIdx qualifies]? =
        devs[devs.findIdx qualifies]? := by
      rw [getElem?_findIdx, getElem?_findIdx, find?_qualifies_readable]
    rw [find_device_and_endpoints_eq cnt (readable devs) h c hc,
      find_device_and_endpoints_eq cnt devs h c hc, selected_readable]
    cases hsel : selected devs with
    | none => simp
    | some p =>
      obtain ⟨dev, inter⟩ := p
      dsimp only
      by_cases ho : dev.openRet = 0
      · rw [if_pos ho, if_pos ho]
        exact ⟨rfl, rfl, by simp [hidx], Or.inr ⟨_, _, rfl, rfl, hidx⟩⟩
      · rw [if_neg ho, if_neg ho]
        exact ⟨rfl, rfl, by simp [hidx], Or.inl ⟨rfl, rfl⟩⟩

/-! ## Release of the interface and of the handle -/

theorem calls_before_cleanup (opens : List Nat) (iface a b n : Nat) (kda : Int) (c : Call)
    (hc : c ∈ (Call.init :: opens.map Call.open ++ Call.kernel_driver_active iface ::
        (if kda = 1 then [Call.detach_kernel_driver iface] else []))
        ++ [Call.claim_interface iface] ++ [Call.bulk_transfer a CMD_LEN]
        ++ List.replicate n (Call.bulk_transfer b CHUNK_SIZE)) :
    c ≠ Call.close ∧ c ≠ Call.exit ∧ ∀ i, c ≠ Call.release_interface i := by
  by_cases hk : kda = 1
  · refine ⟨?_, ?_, ?_⟩
    · rintro rfl; simp [hk] at hc
    · rintro rfl; simp [hk] at hc
    · intro i; rintro rfl; simp [hk] at hc
  · refine ⟨?_, ?_, ?_⟩
    · rintro rfl; simp [hk] at hc
    · rintro rfl; simp [hk] at hc
    · intro i; rintro rfl; simp [hk] at hc

/-- C19: in a run that has claimed the interface, every exit, after a failed
command send, after a failed buffer allocation, or after the receive loop has
left by any of its three `break`s, is preceded by `libusb_release_interface`
and then `libusb_close`, each called exactly once, as the last calls before
`libusb_exit`; each of these five paths does end the run, and the run never
faults inside the loop. -/
theorem main_releases_and_closes (env : Env) (hinit : env.initRet = 0)
    (hfind : (find_device_and_endpoints env.cnt env.devs none ⟨0, 0, 0, 0⟩).ret = 0)
    (hclaim : env.claimRet = 0) :
    (∀ st out calls, main env = Run.exited st out calls →
      ∃ pre, calls = pre ++
          [Call.release_interface
            (find_device_and_endpoints env.cnt env.devs none ⟨0, 0, 0, 0⟩).config.interface_num,
            Call.close, Call.exit] ∧
        Call.claim_interface
          (find_device_and_endpoints env.cnt env.devs none ⟨0, 0, 0, 0⟩).config.interface_num
          ∈ pre ∧
        ∀ c ∈ pre, c ≠ Call.close ∧ c ≠ Call.exit ∧ ∀ i, c ≠ Call.release_interface i) ∧
    (env.sendRet ≠ 0 → ∃ calls, main env = Run.exited 0 [] calls) ∧
    (env.sendRet = 0 → env.chunk_buf = false ∨ env.total_data = false →
      ∃ calls, main env = Run.exited 0 [] calls) ∧
    (∀ s why n, env.sendRet = 0 → env.chunk_buf = true → env.total_data = true →
      rxLoop env.reads rxInit 0 = RxOutcome.done s why n →
      ∃ calls, main env = Run.exited 0 s.stdout calls) ∧
    main env ≠ Run.crashed := by
  refine ⟨?_, ?_, ?_, ?_, ?_⟩
  · intro st out calls hrun
    unfold main at hrun
    simp only [hinit, hfind, hclaim, ne_eq, not_true_eq_false, if_false] at hrun
    have hshort : ∀ c ∈ (Call.init ::
          (find_device_and_endpoints env.cnt env.devs none ⟨0, 0, 0, 0⟩).opens.map Call.open ++
          Call.kernel_driver_active
            (find_device_and_endpoints env.cnt env.devs none ⟨0, 0, 0, 0⟩).config.interface_num ::
          (if env.kernelDriverActive = 1 then
            [Call.detach_kernel_driver
              (find_device_and_endpoints env.cnt env.devs none
                ⟨0, 0, 0, 0⟩).config.interface_num]
          else []))
          ++ [Call.claim_interface
            (find_device_and_endpoints env.cnt env.devs none ⟨0, 0, 0, 0⟩).config.interface_num]
          ++ [Call.bulk_transfer
            ((find_device_and_endpoints env.cnt env.devs none ⟨0, 0, 0, 0⟩).config.ep_out % 256)
            CMD_LEN],
        c ≠ Call.close ∧ c ≠ Call.exit ∧ ∀ i, c ≠ Call.release_interface i := by
      intro c hc
      apply calls_before_cleanup _ _ _ 0 0 env.kernelDriverActive c
      rw [List.replicate_zero, List.append_nil]
      exact hc
    by_cases hsend : env.sendRet = 0
    · simp only [hsend, not_true_eq_false, if_false] at hrun
      by_cases hbuf : (!env.chunk_buf || !env.total_data) = true
      · rw [if_pos hbuf] at hrun
        simp only [Run.exited.injEq] at hrun
        obtain ⟨-, -, rfl⟩ := hrun
        exact ⟨_, rfl, by simp, hshort⟩
      · rw [if_neg hbuf] at hrun
        cases hloop : rxLoop env.reads rxInit 0 with
        | running s => rw [hloop] at hrun; cases hrun
        | fault => rw [hloop] at hrun; cases hrun
        | done s why n =>
          rw [hloop] at hrun
          simp only [Run.exited.injEq] at hrun
          obtain ⟨-, -, rfl⟩ := hrun
          exact ⟨_, rfl, by simp, fun c hc => calls_before_cleanup _ _ _ _ _ _ c hc⟩
    · rw [if_pos hsend] at hrun
      simp only [Run.exited.injEq] at hrun
      obtain ⟨-, -, rfl⟩ := hrun
      exact ⟨_, rfl, by simp, hshort⟩
  · intro hsend
    simp [main, hinit, hfind, hclaim, hsend]
  · intro hsend hbuf
    rcases hbuf with hb | hb <;> simp [main, hinit, hfind, hclaim, hsend, hb]
  · intro s why n hsend hb1 hb2 hloop
    simp [main, hinit, hfind, hclaim, hsend, hb1, hb2, hloop]
  · have hnf := rxLoop_ne_fault env.reads rxInit 0 rxInit_inv
    unfold main
    simp only [hinit, hfind, hclaim, ne_eq, not_true_eq_false, if_false]
    split
    · simp
    · split
      · simp
      · cases hloop : rxLoop env.reads rxInit 0 with
        | running s => simp
        | fault => exact absurd hloop hnf
        | done s why n => simp

/-- Witness for C19: the run on the example device list whose command send
times out. -/
theorem main_releases_and_closes_witness :
    ∃ pre, [Call.init, Call.open 2, Call.kernel_driver_active 1, Call.claim_interface 1,
        Call.bulk_transfer 2 4, Call.release_interface 1, Call.close, Call.exit] =
        pre ++ [Call.release_interface
          (find_device_and_endpoints exSendFail.cnt exSendFail.devs none
            ⟨0, 0, 0, 0⟩).config.interface_num, Call.close, Call.exit] ∧
      Call.claim_interface
        (find_device_and_endpoints exSendFail.cnt exSendFail.devs none
          ⟨0, 0, 0, 0⟩).config.interface_num ∈ pre ∧
      ∀ c ∈ pre, c ≠ Call.close ∧ c ≠ Call.exit ∧ ∀ i, c ≠ Call.release_interface i :=
  (main_releases_and_closes exSendFail (by decide) (by decide) (by decide)).1 0 []
    [Call.init, Call.open 2, Call.kernel_driver_active 1, Call.claim_interface 1,
      Call.bulk_transfer 2 4, Call.release_interface 1, Call.close, Call.exit] (by decide)

/-! ## The direction of the resolved endpoints -/

/-- C20: when the resolver succeeds, `ep_in` has the direction bit `0x80` set
and `ep_out` has it clear, so the two addresses differ, and both are addresses
of endpoints of the first alternate setting of one interface, the interface
whose number is returned, of the device whose product id is returned and whose
handle is stored. -/
theorem find_device_and_endpoints_directions (cnt : Int) (devs : List Device)
    (h : Option Nat) (c : DeviceConfig)
    (hret : (find_device_and_endpoints cnt devs h c).ret = 0) :
    (find_device_and_endpoints cnt devs h c).config.ep_in &&& 0x80 = 0x80 ∧
    (find_device_and_endpoints cnt devs h c).config.ep_out &&& 0x80 = 0 ∧
    (find_device_and_endpoints cnt devs h c).config.ep_in ≠
      (find_device_and_endpoints cnt devs h c).config.ep_out ∧
    ∃ dev inter idx, dev ∈ devs ∧ inter ∈ dev.interface ∧
      (find_device_and_endpoints cnt devs h c).h = some idx ∧ devs[idx]? = some dev ∧
      (find_device_and_endpoints cnt devs h c).config.pid = dev.idProduct ∧
      (find_device_and_endpoints cnt devs h c).config.interface_num = inter.bInterfaceNumber ∧
      (∃ ep ∈ inter.endpoint, isBulk ep = true ∧
        ep.bEndpointAddress = (find_device_and_endpoints cnt devs h c).config.ep_in) ∧
      (∃ ep ∈ inter.endpoint, isBulk ep = true ∧
        ep.bEndpointAddress = (find_device_and_endpoints cnt devs h c).config.ep_out) := by
  obtain ⟨-, dev, inter, hsel, -, heq⟩ := find_device_and_endpoints_ret_zero cnt devs h c hret
  obtain ⟨hfd, hfi⟩ := (selected_eq_some_iff devs dev inter).mp hsel
  have hpair : hasBulkPair inter = true := List.find?_some hfi
  obtain ⟨⟨a, ha⟩, ⟨b, hb⟩⟩ := firstBulk_of_hasBulkPair inter hpair
  have hpa : bulkIn a = true := List.find?_some ha
  have hpb : bulkOut b = true := List.find?_some hb
  simp only [bulkIn, Bool.and_eq_true] at hpa
  simp only [bulkOut, Bool.and_eq_true, Bool.not_eq_true'] at hpb
  have hin : (find_device_and_endpoints cnt devs h c).config.ep_in = a.bEndpointAddress := by
    rw [heq]; simp [firstBulkIn, ha]
  have hout : (find_device_and_endpoints cnt devs h c).config.ep_out = b.bEndpointAddress := by
    rw [heq]; simp [firstBulkOut, hb]
  have hbit_in : a.bEndpointAddress &&& 0x80 = 0x80 := by
    simpa [isIn, LIBUSB_ENDPOINT_DIR_MASK, LIBUSB_ENDPOINT_IN] using hpa.2
  have hbit_out : b.bEndpointAddress &&& 0x80 = 0 := (isIn_eq_false_iff b).mp hpb.2
  refine ⟨by rw [hin]; exact hbit_in, by rw [hout]; exact hbit_out, ?_, ?_⟩
  · rw [hin, hout]
    intro hc
    rw [hc, hbit_out] at hbit_in
    cases hbit_in
  · refine ⟨dev, inter, devs.findIdx qualifies, List.mem_of_find?_eq_some hfd,
      List.mem_of_find?_eq_some hfi, by rw [heq], ?_, by rw [heq], by rw [heq], ?_, ?_⟩
    · rw [getElem?_findIdx, hfd]
    · exact ⟨a, List.mem_of_find?_eq_some ha, hpa.1, hin.symm⟩
    · exact ⟨b, List.mem_of_find?_eq_some hb, hpb.1, hout.symm⟩

/-- Witness for C20: the example device list, resolved to the endpoints `0x83`
and `0x02` of interface 1 of the Samsung device. -/
theorem find_device_and_endpoints_directions_witness :
    (find_device_and_endpoints 3 exDevs none ⟨0, 0, 0, 0⟩).config.ep_in &&& 0x80 = 0x80 ∧
    (find_device_and_endpoints 3 exDevs none ⟨0, 0, 0, 0⟩).config.ep_out &&& 0x80 = 0 ∧
    (find_device_and_endpoints 3 exDevs none ⟨0, 0, 0, 0⟩).config.ep_in ≠
      (find_device_and_endpoints 3 exDevs none ⟨0, 0, 0, 0⟩).config.ep_out :=
  have h := find_device_and_endpoints_directions 3 exDevs none ⟨0, 0, 0, 0⟩ (by decide)
  ⟨h.1, h.2.1, h.2.2.1⟩

end ReceiveData
